import Mathlib

/-!
# Atlas AI bot: conversation store, activity tracker, command router and reconnection

A shallow embedding of `src/index.js`.  The two process-wide maps
`conversationHistory` and `userStats` become explicit state that is passed
through the functions; what the outside world does during one call (the
outcome of the completion request, the clock readings, the texts the fact
fetchers return) is an explicit input of the call.

Modelling conventions.

* A JavaScript string is a Lean `String`.  `String.prototype.trim` is
  `jsTrim` below, with the full ECMAScript white space and line terminator
  set.  `String.prototype.toLowerCase` needs the Unicode case tables, so it
  is an argument `toLowerCase : String → String` of the router and every
  statement about routing holds for whatever function is supplied;
  `asciiLowerCase` is the instance used to evaluate ASCII examples.
* Identifiers are WhatsApp JIDs (`msg.key.remoteJid`); they contain `@`, so
  they never collide with a property inherited from `Object.prototype`, and
  the two maps are total functions / option-valued functions on `Jid`.
  An absent history and an empty one are the same to every read in the
  source (lines 88-90 create the empty array on first use).
* Counters are natural numbers (exact for JavaScript numbers below 2^53);
  a `Date` is the natural number of milliseconds it holds.
* Logging (`logMessage`, `console.log`) and the result of
  `sock.sendMessage` are not modelled: the text handed to
  `sock.sendMessage` is the reply of the handler.
* The connection handlers are a step function on the counter
  `reconnectAttempts` and the exit code, over the events they react to in any
  order; the synchronous part of a handler is one step, the 5 second delay
  before `startBot()` is not modelled, and `DisconnectReason.loggedOut` is an
  argument.
-/

namespace AtlasBot

/-! ## Data model -/

/-- Conversation identifier, the `remoteJid` of the sender. -/
abbrev Jid := String

/-- The `role` field of a chat message. -/
inductive Role where
  | system
  | user
  | assistant
deriving DecidableEq, Repr

/-- One chat message `{ role, content }`. -/
structure Turn where
  role : Role
  content : String
deriving DecidableEq, Repr

/-- The global `conversationHistory` object (line 7). -/
abbrev ConversationHistory := Jid → List Turn

/-- The empty `conversationHistory = {}`. -/
def emptyHistory : ConversationHistory := fun _ => []

/-- Assignment `conversationHistory[userId] = hist`. -/
def setHistory (c : ConversationHistory) (userId : Jid) (hist : List Turn) :
    ConversationHistory :=
  fun j => if j = userId then hist else c j

/-! ## JavaScript string and array primitives -/

/-- ECMAScript `WhiteSpace` and `LineTerminator` code points, the characters
`String.prototype.trim` removes. -/
def isJsWhiteSpace (c : Char) : Bool :=
  let n := c.toNat
  n == 0x09 || n == 0x0A || n == 0x0B || n == 0x0C || n == 0x0D || n == 0x20 ||
  n == 0xA0 || n == 0x1680 || (0x2000 ≤ n && n ≤ 0x200A) || n == 0x2028 ||
  n == 0x2029 || n == 0x202F || n == 0x205F || n == 0x3000 || n == 0xFEFF

/-- The method `String.prototype.trim`. -/
def jsTrim (s : String) : String :=
  ⟨((s.data.dropWhile isJsWhiteSpace).reverse.dropWhile isJsWhiteSpace).reverse⟩

/-- Lower-casing of the ASCII letters only; agrees with
`String.prototype.toLowerCase` on ASCII text. -/
def asciiLowerCase (s : String) : String :=
  ⟨s.data.map Char.toLower⟩

/-- The call `Array.prototype.slice(start)` with one argument: a negative
`start` counts from the end and is clamped at the first element. -/
def jsSlice {α : Type} (xs : List α) (start : Int) : List α :=
  xs.drop (if start < 0 then ((xs.length : Int) + start).toNat else start.toNat)

/-! ## Parsed response bodies -/

/-- A value produced by `response.json()`.  In `obj` the list holds the own
properties of the parsed object, at most one entry per key. -/
inductive Json where
  | null
  | bool (b : Bool)
  | num (n : Int)
  | str (s : String)
  | arr (items : List Json)
  | obj (fields : List (String × Json))

/-- Property read `v.key` on a value that is neither `null` nor `undefined`,
for a key that is not an index, not `length` and not a built-in member
(here: `choices`, `message`, `content`).  `none` is `undefined`. -/
def Json.member (key : String) : Json → Option Json
  | .obj fields => fields.lookup key
  | _ => none

/-- Element read `v[0]` on a value that is neither `null` nor `undefined`. -/
def Json.first : Json → Option Json
  | .arr items => items.head?
  | .str s =>
    match s.data with
    | [] => none
    | ch :: _ => some (.str (String.singleton ch))
  | .obj fields => fields.lookup "0"
  | _ => none

/-- Optional chaining `v?.p`: `undefined` when `v` is `null` or `undefined`,
the property read otherwise. -/
def optChain (v : Option Json) (read : Json → Option Json) : Option Json :=
  match v with
  | none => none
  | some .null => none
  | some j => read j

/-- What a `try` block can throw in `getAIResponse`. -/
inductive JsError where
  | importError
  | fetchError
  | bodyError
  | apiError (status : Nat)
  | typeError
deriving DecidableEq, Repr

/-- Optional call `v?.trim()`: `undefined` when `v` is `null` or `undefined`,
the trimmed text when `v` is a string; on any other value `v.trim` is not a
function and the call throws a `TypeError`. -/
def optTrim : Option Json → Except JsError (Option String)
  | none => .ok none
  | some .null => .ok none
  | some (.str s) => .ok (some (jsTrim s))
  | some _ => .error .typeError

/-- The fallback of line 149. -/
def acknowledgment : String := "I understand your message. How can I help?"

/-- The value `data.choices?.[0]?.message?.content` of line 149, for a body
that is not `null`; `none` is `undefined`. -/
def firstChoiceContent (data : Json) : Option Json :=
  optChain (optChain (optChain (data.member "choices") Json.first) (Json.member "message"))
    (Json.member "content")

/-- Line 149: `data.choices?.[0]?.message?.content?.trim() || acknowledgment`.
Reading `.choices` of `null` throws; `||` takes the fallback when the left
side is `undefined` or the empty string. -/
def extractReply (data : Json) : Except JsError String :=
  match data with
  | .null => .error .typeError
  | d =>
    match optTrim (firstChoiceContent d) with
    | .error e => .error e
    | .ok none => .ok acknowledgment
    | .ok (some s) => .ok (if s = "" then acknowledgment else s)

/-! ## The AI response pipeline (`getAIResponse`, lines 84-162) -/

/-- What happens to the completion request of one `getAIResponse` call. -/
inductive Completion where
  /-- The dynamic import of line 86 rejects. -/
  | importRejects
  /-- The call `fetch(...)` of line 116 rejects. -/
  | fetchRejects
  /-- The response is not ok and `response.text()` (line 132) rejects. -/
  | errorTextRejects
  /-- The response is not ok, its text was read, `response.status` is `status`. -/
  | notOk (status : Nat)
  /-- The response is ok and `response.json()` (line 146) rejects. -/
  | jsonRejects
  /-- The response is ok and its body parses to `data`. -/
  | ok (data : Json)

/-- The object `systemMessage` of lines 102-110, with `CONFIG.botName` filled in. -/
def systemMessage : Turn :=
  { role := .system
    content := "You are Atlas AI, a helpful and intelligent AI assistant.\n- Provide clear, concise, and accurate responses\n- Be conversational and natural\n- Use emojis sparingly when appropriate\n- If you don\x27t know something, admit it honestly\n- Keep responses under 200 words unless more detail is requested" }

/-- The reply to status 401 (line 136). -/
def invalidKeyText : String :=
  "⚠️ Invalid API key. Please check your GROQ_API_KEY in the .env file."

/-- The reply to status 429 (line 138). -/
def rateLimitText : String := "⏸️ Rate limit reached. Please wait and try again."

/-- The reply to status 500 (line 140). -/
def serverIssueText : String :=
  "⚠️ Groq API is experiencing issues. Please try again shortly."

/-- The apology returned by the `catch` block (line 160). -/
def technicalIssueText : String := "⚠️ I encountered a technical issue. Please try again."

/-- Lines 92-95: keep only the last 6 stored messages. -/
def limitHistory (hist : List Turn) : List Turn :=
  if hist.length > 6 then jsSlice hist (-6) else hist

/-- Line 112: `[systemMessage, ...conversationHistory[userId]]`. -/
def buildMessages (hist : List Turn) : List Turn :=
  systemMessage :: hist

/-- Result of running the `try` block of `getAIResponse`. -/
structure Attempt where
  /-- The value returned, or the error thrown, by the `try` block. -/
  outcome : Except JsError String
  /-- The `conversationHistory` when the block is left. -/
  store : ConversationHistory
  /-- The `messages` put in the request body, when `fetch` was called. -/
  request : Option (List Turn)

/-- Lines 88-100: create the history on first use, cut it to its last 6
messages when it holds more than 6, then push the user message. -/
def pushUserTurn (c : ConversationHistory) (userMessage : String) (userId : Jid) :
    ConversationHistory :=
  setHistory c userId (limitHistory (c userId) ++ [{ role := .user, content := userMessage }])

/-- Lines 151-154: push the assistant message. -/
def pushAssistantTurn (c : ConversationHistory) (aiResponse : String) (userId : Jid) :
    ConversationHistory :=
  setHistory c userId (c userId ++ [{ role := .assistant, content := aiResponse }])

/-- The `try` block of `getAIResponse` (lines 86-156). -/
def getAIResponseTry (c : ConversationHistory) (userMessage : String) (userId : Jid)
    (r : Completion) : Attempt :=
  let c1 := pushUserTurn c userMessage userId
  let messages := buildMessages (c1 userId)
  match r with
  | .importRejects => { outcome := .error .importError, store := c, request := none }
  | .fetchRejects => { outcome := .error .fetchError, store := c1, request := some messages }
  | .errorTextRejects => { outcome := .error .bodyError, store := c1, request := some messages }
  | .notOk status =>
    if status = 401 then
      { outcome := .ok invalidKeyText, store := c1, request := some messages }
    else if status = 429 then
      { outcome := .ok rateLimitText, store := c1, request := some messages }
    else if status = 500 then
      { outcome := .ok serverIssueText, store := c1, request := some messages }
    else { outcome := .error (.apiError status), store := c1, request := some messages }
  | .jsonRejects => { outcome := .error .bodyError, store := c1, request := some messages }
  | .ok data =>
    match extractReply data with
    | .error e => { outcome := .error e, store := c1, request := some messages }
    | .ok aiResponse =>
      { outcome := .ok aiResponse
        store := pushAssistantTurn c1 aiResponse userId
        request := some messages }

/-- The function `getAIResponse`: the `try` block, with the `catch` of lines
158-161 turning every thrown error into the fixed apology.  Returns the reply
and the store afterwards. -/
def getAIResponse (c : ConversationHistory) (userMessage : String) (userId : Jid)
    (r : Completion) : String × ConversationHistory :=
  let a := getAIResponseTry c userMessage userId r
  match a.outcome with
  | .ok reply => (reply, a.store)
  | .error _ => (technicalIssueText, a.store)

/-- The `messages` list the call sends to the completion API, if it sends one. -/
def requestMessages (c : ConversationHistory) (userMessage : String) (userId : Jid)
    (r : Completion) : Option (List Turn) :=
  (getAIResponseTry c userMessage userId r).request

/-! ## Fixed replies of the command router -/

/-- The template `COMMANDS.help` (lines 200-223), with `CONFIG` filled in. -/
def helpText : String :=
  "╔════════════════════════════════╗\n║    📋 Atlas AI v1.0.0    ║\n╚════════════════════════════════╝\n\n🤖 INTELLIGENT AI ASSISTANT\n━━━━━━━━━━━━━━━━━━━━━━━━\n\n🔹 Special Commands:\n━━━━━━━━━━━━━━━━━━━━━━━━\n▸ /help - Show this menu\n▸ /joke - Get a random dad joke\n▸ /quote - Get inspirational quote\n▸ /stats - Your chat statistics\n▸ /clear - Clear conversation history\n▸ /ping - Check bot status\n\n💡 Smart Features:\n━━━━━━━━━━━━━━━━━━━━━━━━\n✓ Natural conversation with AI\n✓ Remembers conversation context\n✓ Answers questions intelligently\n✓ Professional & friendly responses\n\n💬 Just chat naturally - I\x27ll understand!"

/-- The template `COMMANDS.info` (lines 225-240), with `CONFIG` filled in. -/
def infoText : String :=
  "╔════════════════════════════════╗\n║      🤖 BOT INFORMATION       ║\n╚════════════════════════════════╝\n\n📱 Name: Atlas AI\n🔢 Version: 1.0.0\n⚡ Status: Active & Learning\n🧠 AI Model: llama-3.3-70b-versatile\n🛠️ Built with: Baileys + Groq API\n\n━━━━━━━━━━━━━━━━━━━━━━━━\nAI-Powered Features:\n✓ Intelligent conversation\n✓ Context-aware responses\n✓ Natural language understanding\n✓ Multi-topic expertise"

/-- The string `COMMANDS.ping` (line 242). -/
def pingText : String := "🏓 Pong! Bot is active and ready! 🤖✨"

/-- The confirmation sent by the `/clear` branch (line 374). -/
def clearedText : String := "✅ Conversation history cleared! 🔄"

/-! ## The user activity tracker (`updateUserStats`, lines 53-63) -/

/-- One entry of `userStats`.  `lastSeen` is `none` while the property has not
been assigned (between lines 55 and 62). -/
structure UserStats where
  messageCount : Nat
  firstSeen : Nat
  aiQueries : Nat
  lastSeen : Option Nat
deriving DecidableEq, Repr

/-- The global `userStats` object (line 8); `none` is a missing entry. -/
abbrev UserStatsMap := Jid → Option UserStats

/-- The empty `userStats = {}`. -/
def emptyStats : UserStatsMap := fun _ => none

/-- Assignment `userStats[userId] = record`. -/
def setStats (u : UserStatsMap) (userId : Jid) (record : UserStats) : UserStatsMap :=
  fun j => if j = userId then some record else u j

/-- The function `updateUserStats`.  `createdAt` is the value of the
`new Date()` of line 57 (read only when the record is created), `seenAt` the
value of the `new Date()` of line 62. -/
def updateUserStats (u : UserStatsMap) (userId : Jid) (createdAt seenAt : Nat) :
    UserStatsMap :=
  let record : UserStats :=
    match u userId with
    | some r => r
    | none => { messageCount := 0, firstSeen := createdAt, aiQueries := 0, lastSeen := none }
  setStats u userId { record with messageCount := record.messageCount + 1, lastSeen := some seenAt }

/-- Lines 381-383: `if (userStats[sender]) userStats[sender].aiQueries++`. -/
def countAIQuery (u : UserStatsMap) (userId : Jid) : UserStatsMap :=
  match u userId with
  | some r => setStats u userId { r with aiQueries := r.aiQueries + 1 }
  | none => u

/-! ## The message handler (`messages.upsert`, lines 320-399) -/

/-- The branch of the handler a message takes. -/
inductive Branch where
  | help
  | info
  | ping
  | joke
  | quote
  | stats
  | clear
  | ai
deriving DecidableEq, Repr

/-- The chain of `if (messageLower === ...)` tests of lines 340-376; a text
that passes none of them reaches the AI processing of lines 378-387. -/
def route (messageLower : String) : Branch :=
  if messageLower = "/help" then .help
  else if messageLower = "/info" then .info
  else if messageLower = "/ping" then .ping
  else if messageLower = "/joke" then .joke
  else if messageLower = "/quote" then .quote
  else if messageLower = "/stats" then .stats
  else if messageLower = "/clear" then .clear
  else .ai

/-- The command token a branch is selected by; the AI branch has none. -/
def Branch.token : Branch → Option String
  | .help => some "/help"
  | .info => some "/info"
  | .ping => some "/ping"
  | .joke => some "/joke"
  | .quote => some "/quote"
  | .stats => some "/stats"
  | .clear => some "/clear"
  | .ai => none

/-- One inbound text message together with what the outside world does while
it is handled. -/
structure Inbound where
  /-- The sender, `msg.key.remoteJid`. -/
  remoteJid : Jid
  /-- The text extracted at lines 326-329. -/
  messageText : String
  /-- The clock at line 57. -/
  createdAt : Nat
  /-- The clock at line 62. -/
  seenAt : Nat
  /-- The outcome of the completion request, used on the AI branch only. -/
  completion : Completion
  /-- What `fetchDadJoke()` returns, used on the `/joke` branch only. -/
  jokeText : String
  /-- What `fetchQuote()` returns, used on the `/quote` branch only. -/
  quoteText : String
  /-- What `getUserStats(sender)` returns, used on the `/stats` branch only. -/
  statsText : String

/-- The two process-wide maps. -/
structure BotState where
  conversationHistory : ConversationHistory
  userStats : UserStatsMap

/-- The state at process start (lines 7-8). -/
def initialState : BotState :=
  { conversationHistory := emptyHistory, userStats := emptyStats }

/-- The value `messageLower` of line 337. -/
def messageLower (toLowerCase : String → String) (messageText : String) : String :=
  jsTrim (toLowerCase messageText)

/-- The body of the `messages.upsert` handler from line 332 on, for a message
that passed the filter of line 323.  Returns the state afterwards and, unless
the message is dropped at line 332, the branch taken with the text handed to
`sock.sendMessage`. -/
def handleMessage (toLowerCase : String → String) (st : BotState) (m : Inbound) :
    BotState × Option (Branch × String) :=
  if jsTrim m.messageText = "" then (st, none)
  else
    let stats := updateUserStats st.userStats m.remoteJid m.createdAt m.seenAt
    let st1 : BotState := { st with userStats := stats }
    match route (messageLower toLowerCase m.messageText) with
    | .help => (st1, some (.help, helpText))
    | .info => (st1, some (.info, infoText))
    | .ping => (st1, some (.ping, pingText))
    | .joke => (st1, some (.joke, m.jokeText))
    | .quote => (st1, some (.quote, m.quoteText))
    | .stats => (st1, some (.stats, m.statsText))
    | .clear =>
      ({ st1 with conversationHistory := setHistory st.conversationHistory m.remoteJid [] },
        some (.clear, clearedText))
    | .ai =>
      let counted := countAIQuery stats m.remoteJid
      let answer := getAIResponse st.conversationHistory m.messageText m.remoteJid m.completion
      ({ conversationHistory := answer.2, userStats := counted }, some (.ai, answer.1))

/-- The state after handling one message. -/
def step (toLowerCase : String → String) (st : BotState) (m : Inbound) : BotState :=
  (handleMessage toLowerCase st m).1

/-- The state after handling a sequence of messages from process start. -/
def run (toLowerCase : String → String) (ms : List Inbound) : BotState :=
  ms.foldl (step toLowerCase) initialState

/-- A message that is not dropped at line 332. -/
def Inbound.handled (m : Inbound) : Bool :=
  decide (jsTrim m.messageText ≠ "")

/-- The `aiQueries` counter of an identifier; 0 while it has no record. -/
def aiQueriesOf (u : UserStatsMap) (userId : Jid) : Nat :=
  match u userId with
  | some r => r.aiQueries
  | none => 0

/-! ## Operations on the conversation store alone -/

/-- The two operations that write `conversationHistory`: a `getAIResponse`
call and the assignment of the `/clear` branch (line 373). -/
inductive StoreOp where
  | respond (userMessage : String) (userId : Jid) (r : Completion)
  | clear (userId : Jid)

/-- Effect of one operation on the store. -/
def applyOp (c : ConversationHistory) : StoreOp → ConversationHistory
  | .respond userMessage userId r => (getAIResponse c userMessage userId r).2
  | .clear userId => setHistory c userId []

/-- The store after a sequence of operations from the empty store. -/
def runOps (ops : List StoreOp) : ConversationHistory :=
  ops.foldl applyOp emptyHistory

/-- A completion outcome after which the user turn is stored and no assistant
turn follows: a rejected request or body read, a response that is not ok, or
an ok response on which line 149 throws. -/
def failsAfterPush : Completion → Bool
  | .importRejects => false
  | .fetchRejects => true
  | .errorTextRejects => true
  | .notOk _ => true
  | .jsonRejects => true
  | .ok data =>
    match extractReply data with
    | .ok _ => false
    | .error _ => true

/-- A response body of the shape the completion API documents: one choice
whose message has the given content. -/
def chatBody (content : String) : Json :=
  .obj [("choices", .arr [.obj [("message", .obj [("content", .str content)])]])]


/-- The operations of a run of freeform messages from one identifier, each
answered by an ok response with the given body. -/
def exchanges (userId : Jid) (msgs : List (String × Json)) : List StoreOp :=
  msgs.map fun p => StoreOp.respond p.1 userId (.ok p.2)

/-- A user turn `{ role: "user", content }`. -/
def userTurn (content : String) : Turn := { role := .user, content := content }

/-- An assistant turn `{ role: "assistant", content }`. -/
def assistantTurn (content : String) : Turn := { role := .assistant, content := content }

/-- The store after a run of `getAIResponse` calls from one identifier. -/
def respondAll (c : ConversationHistory) (userId : Jid) (calls : List (String × Completion)) :
    ConversationHistory :=
  calls.foldl (fun acc p => (getAIResponse acc p.1 userId p.2).2) c

/-- Seven freeform messages `m1` .. `m7`, each answered by the reply `r1` .. `r7`. -/
def sevenMessages : List (String × Json) :=
  [("m1", chatBody "r1"), ("m2", chatBody "r2"), ("m3", chatBody "r3"), ("m4", chatBody "r4"),
   ("m5", chatBody "r5"), ("m6", chatBody "r6"), ("m7", chatBody "r7")]

/-- Seven freeform messages, each answered with HTTP status 429. -/
def sevenRateLimited : List (String × Completion) :=
  [("m1", .notOk 429), ("m2", .notOk 429), ("m3", .notOk 429), ("m4", .notOk 429),
   ("m5", .notOk 429), ("m6", .notOk 429), ("m7", .notOk 429)]

/-- The store after three answered messages from `alice@s.whatsapp.net`. -/
def afterThreeExchanges : ConversationHistory :=
  runOps (exchanges "alice@s.whatsapp.net"
    [("m1", chatBody "r1"), ("m2", chatBody "r2"), ("m3", chatBody "r3")])

/-- The `messageCount` of an identifier; 0 while it has no record. -/
def messageCountOf (u : UserStatsMap) (userId : Jid) : Nat :=
  match u userId with
  | some r => r.messageCount
  | none => 0

/-- The `firstSeen` of an identifier, if it has a record. -/
def firstSeenOf (u : UserStatsMap) (userId : Jid) : Option Nat :=
  match u userId with
  | some r => some r.firstSeen
  | none => none

/-- The messages of a sequence that come from `userId` and are not dropped at
line 332, in order. -/
def handledFrom (userId : Jid) (ms : List Inbound) : List Inbound :=
  ms.filter fun m => m.handled && decide (m.remoteJid = userId)

/-- A handled message that is routed to the AI processing. -/
def Inbound.toAI (toLowerCase : String → String) (m : Inbound) : Bool :=
  m.handled && decide (route (messageLower toLowerCase m.messageText) = .ai)

/-- A sample inbound message. -/
def sampleInbound (remoteJid : Jid) (messageText : String) (clock : Nat) : Inbound :=
  { remoteJid := remoteJid, messageText := messageText, createdAt := clock, seenAt := clock + 1,
    completion := .ok (chatBody "ok"), jokeText := "joke", quoteText := "quote",
    statsText := "stats" }

/-! ## The history-limiting step on its own (`src/test.js`, lines 231-240) -/

/-- The history built by `testConversationHistory` before it applies the
limiting step: two turns, then the ten user turns `Message 0` .. `Message 9`. -/
def testHistory : List Turn :=
  [userTurn "Hello", assistantTurn "Hi there!", userTurn "Message 0", userTurn "Message 1",
   userTurn "Message 2", userTurn "Message 3", userTurn "Message 4", userTurn "Message 5",
   userTurn "Message 6", userTurn "Message 7", userTurn "Message 8", userTurn "Message 9"]

/-! ## Turns appended to a history -/

/-- The turns one `getAIResponse` call pushes on the history of its caller:
none when the import rejects, the user turn (line 97) otherwise, followed by
the assistant turn (line 151) when a reply is extracted. -/
def turnsAppended (userMessage : String) : Completion → List Turn
  | .importRejects => []
  | .ok data =>
    match extractReply data with
    | .ok aiResponse => [userTurn userMessage, assistantTurn aiResponse]
    | .error _ => [userTurn userMessage]
  | _ => [userTurn userMessage]

/-- Bookkeeping of every turn appended for an identifier: a call adds the
turns it pushes, a clear starts the record of its identifier afresh. -/
def logOp (log : Jid → List Turn) : StoreOp → Jid → List Turn
  | .respond userMessage userId r =>
    fun j => if j = userId then log j ++ turnsAppended userMessage r else log j
  | .clear userId => fun j => if j = userId then [] else log j

/-- All turns appended for each identifier since its last clear (or since
start), in order, after a sequence of operations from the empty store. -/
def appendedSinceClear (ops : List StoreOp) : Jid → List Turn :=
  ops.foldl logOp (fun _ => [])

/-! ## The connection state machine (lines 10-11, 280-316 and 401-412) -/

/-- The constant `MAX_RECONNECT_ATTEMPTS` (line 11). -/
def MAX_RECONNECT_ATTEMPTS : Nat := 5

/-- The counter `reconnectAttempts` (line 10) and the exit code once
`process.exit` has been called. -/
structure ConnState where
  reconnectAttempts : Nat
  exited : Option Nat
deriving DecidableEq, Repr

/-- The state at process start. -/
def initialConn : ConnState := { reconnectAttempts := 0, exited := none }

/-- What the connection handlers react to. -/
inductive ConnEvent where
  /-- A `connection.update` whose `connection` is the string `close`; `statusCode` is
  `lastDisconnect?.error?.output?.statusCode`, `none` when it is `undefined`. -/
  | close (statusCode : Option Nat)
  /-- A `connection.update` whose `connection` is the string `open`. -/
  | opened
  /-- Any other `connection.update` (`connecting`, a QR code, no connection field). -/
  | other
  /-- The `try` block of `startBot` throws (line 401). -/
  | startFailed
deriving DecidableEq, Repr

/-- What a handler does besides updating the counter. -/
inductive ConnAction where
  /-- The call `startBot()` of line 300. -/
  | reconnect
  /-- The call `startBot()` of line 408. -/
  | retry
  /-- The call `process.exit(code)`. -/
  | exit (code : Nat)
  | nothing
deriving DecidableEq, Repr

/-- The `connection.update` handler, lines 290-315.  `loggedOut` is the
library constant `DisconnectReason.loggedOut`. -/
def connectionUpdate (loggedOut : Nat) (s : ConnState) (statusCode : Option Nat) :
    ConnState × ConnAction :=
  let shouldReconnect := decide (statusCode ≠ some loggedOut)
  if shouldReconnect = true ∧ s.reconnectAttempts < MAX_RECONNECT_ATTEMPTS then
    ({ s with reconnectAttempts := s.reconnectAttempts + 1 }, .reconnect)
  else if s.reconnectAttempts ≥ MAX_RECONNECT_ATTEMPTS then
    ({ s with exited := some 1 }, .exit 1)
  else ({ s with exited := some 0 }, .exit 0)

/-- The `catch` block of `startBot`, lines 401-412. -/
def startFailure (s : ConnState) : ConnState × ConnAction :=
  if s.reconnectAttempts < MAX_RECONNECT_ATTEMPTS then
    ({ s with reconnectAttempts := s.reconnectAttempts + 1 }, .retry)
  else ({ s with exited := some 1 }, .exit 1)

/-- One event of the connection state machine; nothing runs after
`process.exit`. -/
def connStep (loggedOut : Nat) (s : ConnState) (e : ConnEvent) : ConnState × ConnAction :=
  match s.exited with
  | some _ => (s, .nothing)
  | none =>
    match e with
    | .close statusCode => connectionUpdate loggedOut s statusCode
    | .opened => ({ s with reconnectAttempts := 0 }, .nothing)
    | .other => (s, .nothing)
    | .startFailed => startFailure s

/-- The state after a sequence of events, with the actions taken, in order. -/
def connRun (loggedOut : Nat) : ConnState → List ConnEvent → ConnState × List ConnAction
  | s, [] => (s, [])
  | s, e :: es =>
    ((connRun loggedOut (connStep loggedOut s e).1 es).1,
      (connStep loggedOut s e).2 :: (connRun loggedOut (connStep loggedOut s e).1 es).2)

/-- An action that starts the bot again. -/
def ConnAction.restarts : ConnAction → Bool
  | .reconnect => true
  | .retry => true
  | _ => false

/-- The text `pre ++ body ++ post`. -/
def padded (pre body post : List Char) : String :=
  ⟨pre ++ body ++ post⟩

/-! ## Basic facts about the store and the history limit -/

theorem setHistory_same (c : ConversationHistory) (userId : Jid) (hist : List Turn) :
    setHistory c userId hist userId = hist := by
  simp [setHistory]

theorem setHistory_other (c : ConversationHistory) (userId j : Jid) (hist : List Turn)
    (h : j ≠ userId) : setHistory c userId hist j = c j := by
  simp [setHistory, h]

theorem jsSlice_neg_six {α : Type} (xs : List α) :
    jsSlice xs (-6) = xs.drop (xs.length - 6) := by
  unfold jsSlice
  have h : (((xs.length : Int) + (-6)).toNat) = xs.length - 6 := by omega
  simp [h]

theorem limitHistory_eq_drop (hist : List Turn) :
    limitHistory hist = hist.drop (hist.length - 6) := by
  unfold limitHistory
  split
  · exact jsSlice_neg_six hist
  · have h : hist.length - 6 = 0 := by omega
    simp [h]

theorem limitHistory_length (hist : List Turn) :
    (limitHistory hist).length = min hist.length 6 := by
  rw [limitHistory_eq_drop, List.length_drop]
  omega

theorem pushUserTurn_same (c : ConversationHistory) (t : String) (userId : Jid) :
    pushUserTurn c t userId userId = limitHistory (c userId) ++ [{ role := .user, content := t }] := by
  simp [pushUserTurn, setHistory_same]

theorem pushUserTurn_other (c : ConversationHistory) (t : String) (userId j : Jid)
    (h : j ≠ userId) : pushUserTurn c t userId j = c j := by
  simp [pushUserTurn, setHistory_other _ _ _ _ h]

theorem pushAssistantTurn_same (c : ConversationHistory) (t : String) (userId : Jid) :
    pushAssistantTurn c t userId userId = c userId ++ [{ role := .assistant, content := t }] := by
  simp [pushAssistantTurn, setHistory_same]

theorem pushAssistantTurn_other (c : ConversationHistory) (t : String) (userId j : Jid)
    (h : j ≠ userId) : pushAssistantTurn c t userId j = c j := by
  simp [pushAssistantTurn, setHistory_other _ _ _ _ h]

/-- A call that fails after the push leaves the store as line 100 left it. -/
theorem getAIResponse_store_of_fails (c : ConversationHistory) (t : String) (userId : Jid)
    (r : Completion) (h : failsAfterPush r = true) :
    (getAIResponse c t userId r).2 = pushUserTurn c t userId := by
  cases r with
  | importRejects => simp [failsAfterPush] at h
  | fetchRejects => rfl
  | errorTextRejects => rfl
  | notOk status =>
    simp only [getAIResponse, getAIResponseTry]
    split_ifs <;> rfl
  | jsonRejects => rfl
  | ok data =>
    simp only [failsAfterPush] at h
    simp only [getAIResponse, getAIResponseTry]
    cases hd : extractReply data with
    | error e => rfl
    | ok reply => simp [hd] at h

/-- A call whose reply is extracted stores the user turn and the reply. -/
theorem getAIResponse_of_extracted (c : ConversationHistory) (t : String) (userId : Jid)
    (data : Json) (reply : String) (h : extractReply data = .ok reply) :
    getAIResponse c t userId (.ok data)
      = (reply, pushAssistantTurn (pushUserTurn c t userId) reply userId) := by
  simp [getAIResponse, getAIResponseTry, h]

/-- The three shapes of the store after a call. -/
theorem getAIResponse_store_cases (c : ConversationHistory) (t : String) (userId : Jid)
    (r : Completion) :
    (getAIResponse c t userId r).2 = c ∨
    (getAIResponse c t userId r).2 = pushUserTurn c t userId ∨
    ∃ reply, (getAIResponse c t userId r).2
      = pushAssistantTurn (pushUserTurn c t userId) reply userId := by
  cases hf : failsAfterPush r with
  | true => exact Or.inr (Or.inl (getAIResponse_store_of_fails c t userId r hf))
  | false =>
    cases r with
    | importRejects => exact Or.inl rfl
    | fetchRejects => simp [failsAfterPush] at hf
    | errorTextRejects => simp [failsAfterPush] at hf
    | notOk status => simp [failsAfterPush] at hf
    | jsonRejects => simp [failsAfterPush] at hf
    | ok data =>
      cases hd : extractReply data with
      | error e => simp [failsAfterPush, hd] at hf
      | ok reply =>
        exact Or.inr (Or.inr ⟨reply, by rw [getAIResponse_of_extracted c t userId data reply hd]⟩)

/-- The bound of 8 stored turns is kept by every call. -/
theorem getAIResponse_length_le (c : ConversationHistory) (t : String) (userId : Jid)
    (r : Completion) (j : Jid) (h : (c j).length ≤ 8) :
    ((getAIResponse c t userId r).2 j).length ≤ 8 := by
  by_cases hj : j = userId
  · subst hj
    have hl := limitHistory_length (c j)
    rcases getAIResponse_store_cases c t j r with h1 | h1 | ⟨reply, h1⟩
    · rw [h1]; exact h
    · rw [h1, pushUserTurn_same]; simp; omega
    · rw [h1, pushAssistantTurn_same, pushUserTurn_same]; simp; omega
  · rcases getAIResponse_store_cases c t userId r with h1 | h1 | ⟨reply, h1⟩
    · rw [h1]; exact h
    · rw [h1, pushUserTurn_other _ _ _ _ hj]; exact h
    · rw [h1, pushAssistantTurn_other _ _ _ _ hj, pushUserTurn_other _ _ _ _ hj]; exact h

theorem applyOp_length_le (c : ConversationHistory) (op : StoreOp) (j : Jid)
    (h : (c j).length ≤ 8) : (applyOp c op j).length ≤ 8 := by
  cases op with
  | respond t userId r => exact getAIResponse_length_le c t userId r j h
  | clear userId =>
    by_cases hj : j = userId
    · subst hj; simp [applyOp, setHistory_same]
    · simp only [applyOp]; rw [setHistory_other _ _ _ _ hj]; exact h

theorem foldl_applyOp_length_le (ops : List StoreOp) (c : ConversationHistory) (j : Jid)
    (h : (c j).length ≤ 8) : ((ops.foldl applyOp c) j).length ≤ 8 := by
  induction ops generalizing c with
  | nil => exact h
  | cons op rest ih => exact ih (applyOp c op) (applyOp_length_le c op j h)

theorem runOps_length_le (ops : List StoreOp) (j : Jid) : (runOps ops j).length ≤ 8 :=
  foldl_applyOp_length_le ops emptyHistory j (by simp [emptyHistory])


theorem extractReply_of_succeeds (data : Json) (h : failsAfterPush (.ok data) = false) :
    ∃ reply, extractReply data = .ok reply := by
  simp only [failsAfterPush] at h
  cases hd : extractReply data with
  | error e => simp [hd] at h
  | ok reply => exact ⟨reply, rfl⟩

/-- Length of one history after a run of answered messages. -/
theorem foldl_exchanges_length (userId : Jid) (msgs : List (String × Json))
    (c : ConversationHistory) (hok : ∀ p ∈ msgs, failsAfterPush (.ok p.2) = false)
    (hc : (c userId).length ≤ 8) :
    (((exchanges userId msgs).foldl applyOp c) userId).length
      = min ((c userId).length + 2 * msgs.length) 8 := by
  induction msgs generalizing c with
  | nil => simp [exchanges]; omega
  | cons p rest ih =>
    obtain ⟨reply, hreply⟩ := extractReply_of_succeeds p.2 (hok p (List.mem_cons_self _ _))
    have hstep : (applyOp c (.respond p.1 userId (.ok p.2)) userId).length
        = min ((c userId).length + 2) 8 := by
      simp only [applyOp]
      rw [getAIResponse_of_extracted c p.1 userId p.2 reply hreply]
      simp only [pushAssistantTurn_same, pushUserTurn_same, List.length_append,
        limitHistory_length, List.length_singleton, List.length_nil]
      omega
    have hrest := ih (applyOp c (.respond p.1 userId (.ok p.2)))
      (fun q hq => hok q (List.mem_cons_of_mem _ hq)) (by rw [hstep]; omega)
    simp only [exchanges, List.map_cons, List.foldl_cons] at hrest ⊢
    rw [hrest, hstep]
    simp only [List.length_cons]
    omega

/-- History of the caller after a run of calls that all fail after the push. -/
theorem respondAll_fails (c : ConversationHistory) (userId : Jid)
    (calls : List (String × Completion)) (hempty : c userId = [])
    (hfail : ∀ p ∈ calls, failsAfterPush p.2 = true) :
    respondAll c userId calls userId
      = (calls.map fun p => userTurn p.1).drop (calls.length - 7) := by
  induction calls using List.reverseRecOn with
  | nil => simp [respondAll, hempty]
  | append_singleton init p ih =>
    have hinit := ih (fun q hq => hfail q (List.mem_append_left _ hq))
    have hp := hfail p (by simp)
    simp only [respondAll, List.foldl_append, List.foldl_cons, List.foldl_nil] at hinit ⊢
    rw [getAIResponse_store_of_fails _ _ _ _ hp, pushUserTurn_same, hinit,
      limitHistory_eq_drop, List.drop_drop]
    simp only [List.length_drop, List.length_map, List.map_append, List.map_cons, List.map_nil,
      List.length_append, List.length_singleton]
    have hk : init.length - 7 + (init.length - (init.length - 7) - 6) = init.length - 6 := by
      omega
    rw [hk, List.drop_append_of_le_length (by simp)]
    have hk2 : init.length + 1 - 7 = init.length - 6 := by omega
    rw [hk2]
    rfl

/-- What one handled or dropped message does to the store: nothing, the
assignment of the `/clear` branch, or a `getAIResponse` call. -/
theorem step_history_cases (toLowerCase : String → String) (st : BotState) (m : Inbound) :
    (step toLowerCase st m).conversationHistory = st.conversationHistory ∨
    (step toLowerCase st m).conversationHistory
      = applyOp st.conversationHistory (.clear m.remoteJid) ∨
    (step toLowerCase st m).conversationHistory
      = applyOp st.conversationHistory (.respond m.messageText m.remoteJid m.completion) := by
  by_cases h : jsTrim m.messageText = ""
  · simp [step, handleMessage, h]
  · simp only [step, handleMessage, h, if_false]
    cases route (messageLower toLowerCase m.messageText) <;> simp [applyOp]

theorem foldl_step_length_le (toLowerCase : String → String) (ms : List Inbound)
    (st : BotState) (j : Jid) (h : (st.conversationHistory j).length ≤ 8) :
    (((ms.foldl (step toLowerCase) st).conversationHistory) j).length ≤ 8 := by
  induction ms generalizing st with
  | nil => exact h
  | cons x rest ih =>
    simp only [List.foldl_cons]
    apply ih
    rcases step_history_cases toLowerCase st x with h1 | h1 | h1 <;> rw [h1]
    · exact h
    · exact applyOp_length_le _ _ j h
    · exact applyOp_length_le _ _ j h

/-! ## C1: the stored history is bounded -/

/-- C1, counterexample: after the seven freeform messages `m1` .. `m7`, each
answered successfully, the stored history of the sender holds the 8 turns from
`m4` to the reply to `m7`, which is more than 6. -/
theorem C1_counterexample :
    runOps (exchanges "alice@s.whatsapp.net" sevenMessages) "alice@s.whatsapp.net"
      = [userTurn "m4", assistantTurn "r4", userTurn "m5", assistantTurn "r5",
         userTurn "m6", assistantTurn "r6", userTurn "m7", assistantTurn "r7"] ∧
    ¬ ((runOps (exchanges "alice@s.whatsapp.net" sevenMessages)
          "alice@s.whatsapp.net").length ≤ 6) := by
  decide

/-- C1, amended: in every state reachable from the empty store by
`getAIResponse` calls (with any completion outcome) and `/clear` commands,
and so in every state the message handler reaches from process start,
every stored history holds at most 8 turns once the call has completed: the
limiting step of lines 92-95 leaves at most 6 turns and the call then appends
the user turn and, on success, the assistant turn.  After four or more
successive freeform messages with successful replies from one identifier
(seven, in particular) the stored history has exactly 8 turns. -/
theorem C1_stored_history_at_most_eight (ops : List StoreOp) (userId : Jid)
    (msgs : List (String × Json))
    (hok : ∀ p ∈ msgs, failsAfterPush (.ok p.2) = false) (hlen : 4 ≤ msgs.length) :
    (∀ j, (runOps ops j).length ≤ 8) ∧
    (∀ toLowerCase inbound j,
      ((run toLowerCase inbound).conversationHistory j).length ≤ 8) ∧
    (∀ hist, (limitHistory hist).length ≤ 6) ∧
    (runOps (exchanges userId msgs) userId).length = 8 := by
  refine ⟨fun j => runOps_length_le ops j, fun toLowerCase inbound j => ?_, fun hist => ?_, ?_⟩
  · exact foldl_step_length_le toLowerCase inbound initialState j
      (by simp [initialState, emptyHistory])
  · rw [limitHistory_length]; omega
  · have h := foldl_exchanges_length userId msgs emptyHistory hok (by simp [emptyHistory])
    simp only [runOps]
    rw [h]
    simp only [emptyHistory, List.length_nil]
    omega

/-- C1, witness: the seven answered messages `m1` .. `m7`. -/
theorem C1_stored_history_at_most_eight_witness :
    (runOps (exchanges "bob@s.whatsapp.net" sevenMessages) "bob@s.whatsapp.net").length = 8 :=
  (C1_stored_history_at_most_eight [StoreOp.clear "bob@s.whatsapp.net"] "bob@s.whatsapp.net"
    sevenMessages (by decide) (by decide)).2.2.2

/-! ## C2: user turns appended by failing calls -/

/-- C2, counterexample: seven successive calls that all fail with status 429,
from an empty history, leave 7 stored user turns, not 6. -/
theorem C2_counterexample :
    respondAll emptyHistory "alice@s.whatsapp.net" sevenRateLimited "alice@s.whatsapp.net"
      = [userTurn "m1", userTurn "m2", userTurn "m3", userTurn "m4", userTurn "m5",
         userTurn "m6", userTurn "m7"] ∧
    (respondAll emptyHistory "alice@s.whatsapp.net" sevenRateLimited
        "alice@s.whatsapp.net").length ≠ 6 := by
  decide

/-- C2, amended: for every identifier and every N > 6, starting from an empty
history, N successive `getAIResponse` calls whose completion fails after the
user turn was pushed leave exactly 7 stored turns, and these are the 7 most
recently appended user turns in their original relative order. -/
theorem C2_failed_calls_keep_last_seven (c : ConversationHistory) (userId : Jid)
    (calls : List (String × Completion)) (hempty : c userId = [])
    (hfail : ∀ p ∈ calls, failsAfterPush p.2 = true) (hlen : 6 < calls.length) :
    respondAll c userId calls userId
      = (calls.map fun p => userTurn p.1).drop (calls.length - 7) ∧
    (respondAll c userId calls userId).length = 7 := by
  have h := respondAll_fails c userId calls hempty hfail
  refine ⟨h, ?_⟩
  rw [h, List.length_drop, List.length_map]
  omega

/-- C2, witness: seven calls answered with status 429. -/
theorem C2_failed_calls_keep_last_seven_witness :
    (respondAll emptyHistory "bob@s.whatsapp.net" sevenRateLimited "bob@s.whatsapp.net").length
      = 7 :=
  (C2_failed_calls_keep_last_seven emptyHistory "bob@s.whatsapp.net" sevenRateLimited rfl
    (by decide) (by decide)).2


/-- The request of a call that gets past the import carries the system turn
followed by the history as line 100 left it. -/
theorem requestMessages_eq (c : ConversationHistory) (t : String) (userId : Jid)
    (r : Completion) (hr : r ≠ .importRejects) :
    requestMessages c t userId r = some (buildMessages (pushUserTurn c t userId userId)) := by
  cases r with
  | importRejects => exact absurd rfl hr
  | fetchRejects => rfl
  | errorTextRejects => rfl
  | notOk status =>
    simp only [requestMessages, getAIResponseTry]
    split_ifs <;> rfl
  | jsonRejects => rfl
  | ok data =>
    simp only [requestMessages, getAIResponseTry]
    cases extractReply data <;> rfl

/-- The history of the caller after a call starts with the history that was
sent in the request. -/
theorem getAIResponse_store_extends (c : ConversationHistory) (t : String) (userId : Jid)
    (r : Completion) (hr : r ≠ .importRejects) :
    ∃ rest, (getAIResponse c t userId r).2 userId = pushUserTurn c t userId userId ++ rest := by
  cases hf : failsAfterPush r with
  | true => exact ⟨[], by rw [getAIResponse_store_of_fails c t userId r hf]; simp⟩
  | false =>
    cases r with
    | importRejects => exact absurd rfl hr
    | fetchRejects => simp [failsAfterPush] at hf
    | errorTextRejects => simp [failsAfterPush] at hf
    | notOk status => simp [failsAfterPush] at hf
    | jsonRejects => simp [failsAfterPush] at hf
    | ok data =>
      obtain ⟨reply, hreply⟩ := extractReply_of_succeeds data hf
      exact ⟨[assistantTurn reply], by
        rw [getAIResponse_of_extracted c t userId data reply hreply]
        simp only [pushAssistantTurn_same]
        rfl⟩

/-! ## C3: the message list sent to the completion API -/

set_option maxRecDepth 8000 in
/-- C3, counterexample: after three answered messages the stored history has
6 turns; the next call stores 7 turns before it builds the list, and the list
it sends has 8 entries, which is neither `1 + min n 6` (for `n = 6` or
`n = 7`) nor at most 7. -/
theorem C3_counterexample :
    (afterThreeExchanges "alice@s.whatsapp.net").length = 6 ∧
    (pushUserTurn afterThreeExchanges "m4" "alice@s.whatsapp.net"
        "alice@s.whatsapp.net").length = 7 ∧
    requestMessages afterThreeExchanges "m4" "alice@s.whatsapp.net" (.ok (chatBody "r4"))
      = some [systemMessage, userTurn "m1", assistantTurn "r1", userTurn "m2",
          assistantTurn "r2", userTurn "m3", assistantTurn "r3", userTurn "m4"] ∧
    (requestMessages afterThreeExchanges "m4" "alice@s.whatsapp.net"
        (.ok (chatBody "r4"))).map List.length = some 8 := by
  decide

/-- C3, amended: for every identifier, user text and prior history of length
`n`, the message list that `getAIResponse` builds has the fixed system persona
turn first, followed by the stored history of that identifier in order as it
stands at that moment, which is the prior history cut to its last 6 turns
followed by the new user turn; the list has exactly `1 + (min n 6 + 1)`
entries, so never more than 8 (system turn plus at most 7 turns), and building
it does not change the stored history: the history stored when the call
returns still starts with the turns that were sent. -/
theorem C3_request_messages (c : ConversationHistory) (t : String) (userId : Jid)
    (r : Completion) (hr : r ≠ .importRejects) :
    ∃ msgs, requestMessages c t userId r = some msgs ∧
      msgs = systemMessage :: pushUserTurn c t userId userId ∧
      pushUserTurn c t userId userId = limitHistory (c userId) ++ [userTurn t] ∧
      limitHistory (c userId) = (c userId).drop ((c userId).length - 6) ∧
      msgs.length = 1 + (min (c userId).length 6 + 1) ∧
      msgs.length ≤ 8 ∧
      ∃ rest, (getAIResponse c t userId r).2 userId = msgs.tail ++ rest := by
  refine ⟨_, requestMessages_eq c t userId r hr, rfl, pushUserTurn_same c t userId,
    limitHistory_eq_drop _, ?_, ?_, ?_⟩
  · simp only [buildMessages, List.length_cons, pushUserTurn_same, List.length_append,
      limitHistory_length, List.length_singleton, List.length_nil]
    omega
  · simp only [buildMessages, List.length_cons, pushUserTurn_same, List.length_append,
      limitHistory_length, List.length_singleton, List.length_nil]
    omega
  · exact getAIResponse_store_extends c t userId r hr

/-- C3, witness: a call answered with status 500 on a fresh store. -/
theorem C3_request_messages_witness :
    ∃ msgs, requestMessages emptyHistory "hello" "bob@s.whatsapp.net" (.notOk 500) = some msgs ∧
      msgs = systemMessage :: pushUserTurn emptyHistory "hello" "bob@s.whatsapp.net"
        "bob@s.whatsapp.net" ∧
      pushUserTurn emptyHistory "hello" "bob@s.whatsapp.net" "bob@s.whatsapp.net"
        = limitHistory (emptyHistory "bob@s.whatsapp.net") ++ [userTurn "hello"] ∧
      limitHistory (emptyHistory "bob@s.whatsapp.net")
        = (emptyHistory "bob@s.whatsapp.net").drop
            ((emptyHistory "bob@s.whatsapp.net").length - 6) ∧
      msgs.length = 1 + (min (emptyHistory "bob@s.whatsapp.net").length 6 + 1) ∧
      msgs.length ≤ 8 ∧
      ∃ rest, (getAIResponse emptyHistory "hello" "bob@s.whatsapp.net" (.notOk 500)).2
        "bob@s.whatsapp.net" = msgs.tail ++ rest :=
  C3_request_messages emptyHistory "hello" "bob@s.whatsapp.net" (.notOk 500)
    (fun h => Completion.noConfusion h)


/-! ## C4: command routing -/

theorem route_eq_help (x : String) : route x = .help ↔ x = "/help" := by
  unfold route; split_ifs <;> simp_all

theorem route_eq_info (x : String) : route x = .info ↔ x = "/info" := by
  unfold route; split_ifs <;> simp_all

theorem route_eq_ping (x : String) : route x = .ping ↔ x = "/ping" := by
  unfold route; split_ifs <;> simp_all

theorem route_eq_joke (x : String) : route x = .joke ↔ x = "/joke" := by
  unfold route; split_ifs <;> simp_all

theorem route_eq_quote (x : String) : route x = .quote ↔ x = "/quote" := by
  unfold route; split_ifs <;> simp_all

theorem route_eq_stats (x : String) : route x = .stats ↔ x = "/stats" := by
  unfold route; split_ifs <;> simp_all

theorem route_eq_clear (x : String) : route x = .clear ↔ x = "/clear" := by
  unfold route; split_ifs <;> simp_all

theorem route_eq_ai (x : String) :
    route x = .ai ↔ x ≠ "/help" ∧ x ≠ "/info" ∧ x ≠ "/ping" ∧ x ≠ "/joke" ∧ x ≠ "/quote" ∧
      x ≠ "/stats" ∧ x ≠ "/clear" := by
  unfold route; split_ifs <;> simp_all

/-- A message that is not dropped takes the branch `route` selects. -/
theorem handleMessage_branch (toLowerCase : String → String) (st : BotState) (m : Inbound)
    (h : jsTrim m.messageText ≠ "") :
    ∃ reply, (handleMessage toLowerCase st m).2
      = some (route (messageLower toLowerCase m.messageText), reply) := by
  simp only [handleMessage, h, if_false]
  cases route (messageLower toLowerCase m.messageText) <;> exact ⟨_, rfl⟩

/-- On the AI branch the reply and the store are those of `getAIResponse`. -/
theorem handleMessage_ai (toLowerCase : String → String) (st : BotState) (m : Inbound)
    (h : jsTrim m.messageText ≠ "")
    (hr : route (messageLower toLowerCase m.messageText) = .ai) :
    handleMessage toLowerCase st m
      = ({ conversationHistory :=
             (getAIResponse st.conversationHistory m.messageText m.remoteJid m.completion).2
           userStats := countAIQuery
             (updateUserStats st.userStats m.remoteJid m.createdAt m.seenAt) m.remoteJid },
         some (.ai,
           (getAIResponse st.conversationHistory m.messageText m.remoteJid m.completion).1)) := by
  simp only [handleMessage, h, if_false, hr]

/-- C4: a message that is non-empty after trimming takes exactly one branch;
it is the branch of command `c` exactly when the lower-cased, trimmed text
equals `c`, for each of the seven command tokens, and the AI branch (reply
and store effect of `getAIResponse`) exactly when it equals none of them.
Texts that only start with or contain a token, such as `/help me` and
`/pingg`, take the AI branch. -/
theorem C4_routing (toLowerCase : String → String) (st : BotState) (m : Inbound)
    (h : jsTrim m.messageText ≠ "") :
    ∃ b reply, (handleMessage toLowerCase st m).2 = some (b, reply) ∧
      (b = .help ↔ jsTrim (toLowerCase m.messageText) = "/help") ∧
      (b = .info ↔ jsTrim (toLowerCase m.messageText) = "/info") ∧
      (b = .ping ↔ jsTrim (toLowerCase m.messageText) = "/ping") ∧
      (b = .joke ↔ jsTrim (toLowerCase m.messageText) = "/joke") ∧
      (b = .quote ↔ jsTrim (toLowerCase m.messageText) = "/quote") ∧
      (b = .stats ↔ jsTrim (toLowerCase m.messageText) = "/stats") ∧
      (b = .clear ↔ jsTrim (toLowerCase m.messageText) = "/clear") ∧
      (b = .ai ↔ ∀ c tok, Branch.token c = some tok → jsTrim (toLowerCase m.messageText) ≠ tok) ∧
      (b = .ai →
        reply = (getAIResponse st.conversationHistory m.messageText m.remoteJid m.completion).1 ∧
        (handleMessage toLowerCase st m).1.conversationHistory
          = (getAIResponse st.conversationHistory m.messageText m.remoteJid m.completion).2) ∧
      (handleMessage asciiLowerCase st { m with messageText := "/help me" }).2.map Prod.fst
        = some .ai ∧
      (handleMessage asciiLowerCase st { m with messageText := "/pingg" }).2.map Prod.fst
        = some .ai ∧
      (handleMessage asciiLowerCase st { m with messageText := " /Help " }).2.map Prod.fst
        = some .help := by
  obtain ⟨reply, hreply⟩ := handleMessage_branch toLowerCase st m h
  refine ⟨_, reply, hreply, route_eq_help _, route_eq_info _, route_eq_ping _, route_eq_joke _,
    route_eq_quote _, route_eq_stats _, route_eq_clear _, ?_, ?_, ?_, ?_, ?_⟩
  · rw [route_eq_ai]
    constructor
    · intro hne c tok hc
      simp only [messageLower] at hne
      cases c <;> simp [Branch.token] at hc <;> (subst hc; tauto)
    · intro hall
      exact ⟨hall .help _ rfl, hall .info _ rfl, hall .ping _ rfl, hall .joke _ rfl,
        hall .quote _ rfl, hall .stats _ rfl, hall .clear _ rfl⟩
  · intro hai
    have hm := handleMessage_ai toLowerCase st m h hai
    rw [hm] at hreply
    simp only [Option.some.injEq, Prod.mk.injEq, true_and] at hreply
    exact ⟨hreply.2.symm, by rw [hm]⟩
  · obtain ⟨r, hr⟩ := handleMessage_branch asciiLowerCase st { m with messageText := "/help me" }
      (show jsTrim "/help me" ≠ "" by decide)
    rw [hr]
    exact congrArg some (show route (messageLower asciiLowerCase "/help me") = .ai by decide)
  · obtain ⟨r, hr⟩ := handleMessage_branch asciiLowerCase st { m with messageText := "/pingg" }
      (show jsTrim "/pingg" ≠ "" by decide)
    rw [hr]
    exact congrArg some (show route (messageLower asciiLowerCase "/pingg") = .ai by decide)
  · obtain ⟨r, hr⟩ := handleMessage_branch asciiLowerCase st { m with messageText := " /Help " }
      (show jsTrim " /Help " ≠ "" by decide)
    rw [hr]
    exact congrArg some (show route (messageLower asciiLowerCase " /Help ") = .help by decide)

/-- C4, witness: the text `/STATS`, padded, lower-cased by `asciiLowerCase`. -/
theorem C4_routing_witness :
    ∃ b reply,
      (handleMessage asciiLowerCase initialState
        { remoteJid := "bob@s.whatsapp.net", messageText := "  /STATS ", createdAt := 10,
          seenAt := 11, completion := .fetchRejects, jokeText := "j", quoteText := "q",
          statsText := "s" }).2 = some (b, reply) ∧ b = .stats := by
  obtain ⟨b, reply, h1, _, _, _, _, _, h7, _⟩ :=
    C4_routing asciiLowerCase initialState
      { remoteJid := "bob@s.whatsapp.net", messageText := "  /STATS ", createdAt := 10,
        seenAt := 11, completion := .fetchRejects, jokeText := "j", quoteText := "q",
        statsText := "s" } (by decide)
  exact ⟨b, reply, h1, h7.mpr (by decide)⟩


/-! ## C5: the AI query counter -/

theorem setStats_same (u : UserStatsMap) (userId : Jid) (record : UserStats) :
    setStats u userId record userId = some record := by
  simp [setStats]

theorem setStats_other (u : UserStatsMap) (userId j : Jid) (record : UserStats)
    (h : j ≠ userId) : setStats u userId record j = u j := by
  simp [setStats, h]

/-- After `updateUserStats` the identifier has a record. -/
theorem updateUserStats_same (u : UserStatsMap) (userId : Jid) (createdAt seenAt : Nat) :
    updateUserStats u userId createdAt seenAt userId
      = some (match u userId with
          | some r => { r with messageCount := r.messageCount + 1, lastSeen := some seenAt }
          | none => { messageCount := 1, firstSeen := createdAt, aiQueries := 0,
                      lastSeen := some seenAt }) := by
  unfold updateUserStats
  cases u userId <;> simp [setStats_same]

theorem updateUserStats_other (u : UserStatsMap) (userId j : Jid) (createdAt seenAt : Nat)
    (h : j ≠ userId) : updateUserStats u userId createdAt seenAt j = u j := by
  unfold updateUserStats
  simp [setStats_other _ _ _ _ h]

theorem aiQueriesOf_updateUserStats (u : UserStatsMap) (userId j : Jid)
    (createdAt seenAt : Nat) :
    aiQueriesOf (updateUserStats u userId createdAt seenAt) j = aiQueriesOf u j := by
  by_cases hj : j = userId
  · subst hj
    simp only [aiQueriesOf, updateUserStats_same]
    cases u j <;> rfl
  · simp only [aiQueriesOf, updateUserStats_other _ _ _ _ _ hj]

/-- Lines 381-383 after `updateUserStats`: the counter goes up by one. -/
theorem aiQueriesOf_countAIQuery (u : UserStatsMap) (userId j : Jid)
    (createdAt seenAt : Nat) :
    aiQueriesOf (countAIQuery (updateUserStats u userId createdAt seenAt) userId) j
      = aiQueriesOf u j + (if j = userId then 1 else 0) := by
  have hrec := updateUserStats_same u userId createdAt seenAt
  by_cases hj : j = userId
  · subst hj
    simp only [countAIQuery, hrec, aiQueriesOf, setStats_same, if_true]
    cases u j <;> rfl
  · simp only [countAIQuery, hrec, if_neg hj, Nat.add_zero]
    simp only [aiQueriesOf, setStats_other _ _ _ _ hj, updateUserStats_other _ _ _ _ _ hj]

/-- Effect of one message on the AI query counter of any identifier. -/
theorem step_aiQueriesOf (toLowerCase : String → String) (st : BotState) (m : Inbound)
    (j : Jid) :
    aiQueriesOf (step toLowerCase st m).userStats j
      = aiQueriesOf st.userStats j
        + (if m.toAI toLowerCase = true ∧ m.remoteJid = j then 1 else 0) := by
  by_cases h : jsTrim m.messageText = ""
  · simp [step, handleMessage, h, Inbound.toAI, Inbound.handled]
  · by_cases hr : route (messageLower toLowerCase m.messageText) = .ai
    · have hm := handleMessage_ai toLowerCase st m h hr
      simp only [step, hm, aiQueriesOf_countAIQuery, Inbound.toAI, Inbound.handled, hr]
      simp [h, eq_comm]
    · have hto : m.toAI toLowerCase = false := by simp [Inbound.toAI, hr]
      simp only [hto, Bool.false_eq_true, false_and, if_false, Nat.add_zero]
      simp only [step, handleMessage, h, if_false]
      cases hb : route (messageLower toLowerCase m.messageText) <;>
        first
        | exact absurd hb hr
        | exact aiQueriesOf_updateUserStats _ _ _ _ _

theorem foldl_step_aiQueriesOf (toLowerCase : String → String) (ms : List Inbound)
    (st : BotState) (j : Jid)
    (hcmd : ∀ x ∈ ms, x.remoteJid = j → x.toAI toLowerCase = false) :
    aiQueriesOf (ms.foldl (step toLowerCase) st).userStats j = aiQueriesOf st.userStats j := by
  induction ms generalizing st with
  | nil => rfl
  | cons x rest ih =>
    simp only [List.foldl_cons]
    rw [ih _ (fun y hy => hcmd y (List.mem_cons_of_mem _ hy)), step_aiQueriesOf]
    have hx := hcmd x (List.mem_cons_self _ _)
    by_cases hj : x.remoteJid = j
    · simp [hx hj]
    · simp [hj]

/-- C5: handling a message (non-empty after trimming) from an identifier
raises its `aiQueries` counter by exactly 1 if and only if the message is
routed to the AI path, and leaves it unchanged when the message matches one
of the seven command tokens; `updateUserStats` has run before the decision,
so the record exists and the increment of lines 381-383 is never skipped; an
identifier that has sent only commands has `aiQueries = 0` after any
sequence of messages (whatever other identifiers send). -/
theorem C5_ai_query_counter (toLowerCase : String → String) (st : BotState) (m : Inbound)
    (ms : List Inbound) (h : jsTrim m.messageText ≠ "")
    (hcmd : ∀ x ∈ ms, x.remoteJid = m.remoteJid → x.toAI toLowerCase = false) :
    (aiQueriesOf (step toLowerCase st m).userStats m.remoteJid
        = aiQueriesOf st.userStats m.remoteJid + 1
      ↔ route (messageLower toLowerCase m.messageText) = .ai) ∧
    (route (messageLower toLowerCase m.messageText) ≠ .ai →
      aiQueriesOf (step toLowerCase st m).userStats m.remoteJid
        = aiQueriesOf st.userStats m.remoteJid) ∧
    (∀ c tok, Branch.token c = some tok → jsTrim (toLowerCase m.messageText) = tok →
      aiQueriesOf (step toLowerCase st m).userStats m.remoteJid
        = aiQueriesOf st.userStats m.remoteJid) ∧
    (∃ r, updateUserStats st.userStats m.remoteJid m.createdAt m.seenAt m.remoteJid = some r ∧
      (step toLowerCase st m).userStats m.remoteJid
        = some (if route (messageLower toLowerCase m.messageText) = .ai
            then { r with aiQueries := r.aiQueries + 1 } else r)) ∧
    aiQueriesOf (run toLowerCase ms).userStats m.remoteJid = 0 := by
  have hstep := step_aiQueriesOf toLowerCase st m m.remoteJid
  have hto : m.toAI toLowerCase = true ↔ route (messageLower toLowerCase m.messageText) = .ai := by
    simp [Inbound.toAI, Inbound.handled, h]
  refine ⟨?_, ?_, ?_, ?_, ?_⟩
  · rw [hstep]
    by_cases hr : route (messageLower toLowerCase m.messageText) = .ai
    · simp [hto.mpr hr, hr]
    · have : ¬ (m.toAI toLowerCase = true) := fun hc => hr (hto.mp hc)
      simp [this, hr]
  · intro hr
    have : ¬ (m.toAI toLowerCase = true) := fun hc => hr (hto.mp hc)
    rw [hstep]; simp [this]
  · intro c tok hc htok
    have hr : route (messageLower toLowerCase m.messageText) ≠ .ai := by
      rw [Ne, route_eq_ai]
      simp only [messageLower, htok]
      cases c <;> simp [Branch.token] at hc <;> (subst hc; simp)
    have : ¬ (m.toAI toLowerCase = true) := fun hc => hr (hto.mp hc)
    rw [hstep]; simp [this]
  · refine ⟨_, updateUserStats_same _ _ _ _, ?_⟩
    by_cases hr : route (messageLower toLowerCase m.messageText) = .ai
    · have hm := handleMessage_ai toLowerCase st m h hr
      simp only [step, hm, countAIQuery, updateUserStats_same, setStats_same, hr, if_true]
    · simp only [step, handleMessage, h, if_false, hr]
      cases hb : route (messageLower toLowerCase m.messageText) <;>
        first
        | exact absurd hb hr
        | exact updateUserStats_same _ _ _ _
  · exact foldl_step_aiQueriesOf toLowerCase ms initialState m.remoteJid hcmd

/-- C5, witness: a `/ping` from an identifier whose other messages are
commands, while another identifier chats freely. -/
theorem C5_ai_query_counter_witness :
    aiQueriesOf (run asciiLowerCase
      [sampleInbound "bob@s.whatsapp.net" "/help" 1, sampleInbound "eve@s.whatsapp.net" "hi" 2,
       sampleInbound "bob@s.whatsapp.net" " /Stats" 3]).userStats "bob@s.whatsapp.net" = 0 :=
  (C5_ai_query_counter asciiLowerCase initialState (sampleInbound "bob@s.whatsapp.net" "/ping" 9)
    [sampleInbound "bob@s.whatsapp.net" "/help" 1, sampleInbound "eve@s.whatsapp.net" "hi" 2,
     sampleInbound "bob@s.whatsapp.net" " /Stats" 3] (by decide) (by decide)).2.2.2.2


/-! ## C6: a failed completion appends nothing but the user turn -/

/-- C6: when the completion call fails after the user turn was pushed (a
response that is not ok, whatever its status; a rejected request or body
read; a body on which the extraction throws), no assistant turn is appended:
the stored history of the caller is the prior history, cut to its last 6
turns if it had more than 6, followed by the single user turn, and the
histories of all other identifiers are unchanged. -/
theorem C6_failure_appends_only_user_turn (c : ConversationHistory) (t : String)
    (userId : Jid) (r : Completion) (h : failsAfterPush r = true) :
    (getAIResponse c t userId r).2 userId
      = (c userId).drop ((c userId).length - 6) ++ [{ role := .user, content := t }] ∧
    ((c userId).length ≤ 6 →
      (getAIResponse c t userId r).2 userId = c userId ++ [{ role := .user, content := t }]) ∧
    (∀ j, j ≠ userId → (getAIResponse c t userId r).2 j = c j) ∧
    (∀ status, failsAfterPush (.notOk status) = true) ∧
    failsAfterPush .fetchRejects = true ∧ failsAfterPush .errorTextRejects = true ∧
    failsAfterPush .jsonRejects = true := by
  have hs := getAIResponse_store_of_fails c t userId r h
  refine ⟨?_, ?_, ?_, fun _ => rfl, rfl, rfl, rfl⟩
  · rw [hs, pushUserTurn_same, limitHistory_eq_drop]
  · intro hle
    have h0 : (c userId).length - 6 = 0 := by omega
    rw [hs, pushUserTurn_same, limitHistory_eq_drop, h0, List.drop_zero]
  · intro j hj
    rw [hs, pushUserTurn_other _ _ _ _ hj]

/-- C6, witness: status 429 after three answered messages. -/
theorem C6_failure_appends_only_user_turn_witness :
    (getAIResponse afterThreeExchanges "m4" "alice@s.whatsapp.net" (.notOk 429)).2
        "alice@s.whatsapp.net"
      = (afterThreeExchanges "alice@s.whatsapp.net").drop
          ((afterThreeExchanges "alice@s.whatsapp.net").length - 6)
        ++ [{ role := .user, content := "m4" }] :=
  (C6_failure_appends_only_user_turn afterThreeExchanges "m4" "alice@s.whatsapp.net"
    (.notOk 429) rfl).1

/-! ## C7: error replies -/

/-- Every error thrown inside the `try` block is answered with the apology. -/
theorem getAIResponse_of_thrown (c : ConversationHistory) (t : String) (userId : Jid)
    (r : Completion) (e : JsError) (h : (getAIResponseTry c t userId r).outcome = .error e) :
    (getAIResponse c t userId r).1 = technicalIssueText := by
  simp [getAIResponse, h]

/-- C7: `getAIResponse` is a total function to a string, so it returns to its
caller whatever the completion does.  A response that is not ok with status
401, 429 or 500 is answered with three pairwise distinct fixed strings; any
other status that is not ok, a rejected request, a rejected body read, an
unparsable body, and in general every error thrown inside the `try` block,
is answered with the generic apology, which differs from those three. -/
theorem C7_error_replies (c : ConversationHistory) (t : String) (userId : Jid) (status : Nat)
    (r : Completion) (e : JsError)
    (hstatus : status ≠ 401 ∧ status ≠ 429 ∧ status ≠ 500)
    (hthrown : (getAIResponseTry c t userId r).outcome = .error e) :
    (getAIResponse c t userId (.notOk 401)).1 = invalidKeyText ∧
    (getAIResponse c t userId (.notOk 429)).1 = rateLimitText ∧
    (getAIResponse c t userId (.notOk 500)).1 = serverIssueText ∧
    invalidKeyText ≠ rateLimitText ∧ invalidKeyText ≠ serverIssueText ∧
    rateLimitText ≠ serverIssueText ∧
    (getAIResponse c t userId (.notOk status)).1 = technicalIssueText ∧
    (getAIResponse c t userId .fetchRejects).1 = technicalIssueText ∧
    (getAIResponse c t userId .errorTextRejects).1 = technicalIssueText ∧
    (getAIResponse c t userId .jsonRejects).1 = technicalIssueText ∧
    (getAIResponse c t userId .importRejects).1 = technicalIssueText ∧
    (getAIResponse c t userId r).1 = technicalIssueText ∧
    technicalIssueText ≠ invalidKeyText ∧ technicalIssueText ≠ rateLimitText ∧
    technicalIssueText ≠ serverIssueText := by
  obtain ⟨h401, h429, h500⟩ := hstatus
  refine ⟨rfl, rfl, rfl, by decide, by decide, by decide, ?_, rfl, rfl, rfl, rfl,
    getAIResponse_of_thrown c t userId r e hthrown, by decide, by decide, by decide⟩
  simp [getAIResponse, getAIResponseTry, h401, h429, h500]

/-- C7, witness: status 503, and a body that is the JSON value `null`. -/
theorem C7_error_replies_witness :
    (getAIResponse emptyHistory "hello" "bob@s.whatsapp.net" (.notOk 503)).1
      = technicalIssueText ∧
    (getAIResponse emptyHistory "hello" "bob@s.whatsapp.net" (.ok .null)).1
      = technicalIssueText :=
  have h := C7_error_replies emptyHistory "hello" "bob@s.whatsapp.net" 503 (.ok .null)
    .typeError (by decide) rfl
  ⟨h.2.2.2.2.2.2.1, h.2.2.2.2.2.2.2.2.2.2.2.1⟩

/-! ## C8: successful replies -/

/-- Optional chaining is `Option.bind` for a read that gives `undefined` on `null`. -/
theorem optChain_eq_bind (v : Option Json) (read : Json → Option Json)
    (hnull : read .null = none) : optChain v read = v.bind read := by
  cases v with
  | none => rfl
  | some j => cases j <;> first | exact hnull.symm | rfl

theorem firstChoiceContent_eq_bind (data : Json) :
    firstChoiceContent data
      = (((data.member "choices").bind Json.first).bind (Json.member "message")).bind
          (Json.member "content") := by
  unfold firstChoiceContent
  rw [optChain_eq_bind _ _ rfl, optChain_eq_bind _ _ rfl, optChain_eq_bind _ _ rfl]

/-- Line 149 on a body that is not `null`. -/
theorem extractReply_of_content (data : Json) (hbody : data ≠ .null) :
    extractReply data
      = match optTrim (firstChoiceContent data) with
        | .error e => .error e
        | .ok none => .ok acknowledgment
        | .ok (some s) => .ok (if s = "" then acknowledgment else s) := by
  cases data <;> first | exact absurd rfl hbody | rfl

/-- C8, counterexample: two ok responses.  For the body `null` (no `choices`
to read) the generic apology is returned instead of the acknowledgment and
the stored history ends with the user turn; for a first choice whose content
is the number 42 the same happens. -/
theorem C8_counterexample :
    getAIResponse emptyHistory "hi" "alice@s.whatsapp.net" (.ok .null)
      = (technicalIssueText, setHistory emptyHistory "alice@s.whatsapp.net" [userTurn "hi"]) ∧
    (getAIResponse emptyHistory "hi" "alice@s.whatsapp.net" (.ok .null)).2
        "alice@s.whatsapp.net" = [userTurn "hi"] ∧
    technicalIssueText ≠ acknowledgment ∧
    (getAIResponse emptyHistory "hi" "alice@s.whatsapp.net"
      (.ok (.obj [("choices", .arr [.obj [("message", .obj [("content", .num 42)])]])]))).1
      = technicalIssueText ∧
    (getAIResponse emptyHistory "hi" "alice@s.whatsapp.net"
      (.ok (.obj [("choices", .arr [.obj [("message", .obj [("content", .num 42)])]])]))).2
        "alice@s.whatsapp.net" = [userTurn "hi"] := by
  refine ⟨rfl, by decide, by decide, by decide, by decide⟩

/-- C8, amended: for every ok response whose parsed body is not `null` and
whose first-choice content, when present, is `null` or a string,
`getAIResponse` returns the trimmed content, or the acknowledgment when
`choices`, the first choice, its message or its content is missing or `null`
or the content is empty after trimming; the returned string is never empty,
and the stored history afterwards is the prior history (cut to its last 6)
followed by the new user turn and an assistant turn holding the returned
string. -/
theorem C8_successful_reply (c : ConversationHistory) (t : String) (userId : Jid)
    (data : Json) (hbody : data ≠ .null)
    (hcontent : ∀ v, firstChoiceContent data = some v → v = .null ∨ ∃ s, v = .str s) :
    (∀ s, firstChoiceContent data = some (.str s) → jsTrim s ≠ "" →
      (getAIResponse c t userId (.ok data)).1 = jsTrim s) ∧
    (firstChoiceContent data = none ∨ firstChoiceContent data = some .null ∨
        (∃ s, firstChoiceContent data = some (.str s) ∧ jsTrim s = "") →
      (getAIResponse c t userId (.ok data)).1 = acknowledgment) ∧
    (data.member "choices" = none → firstChoiceContent data = none) ∧
    (∀ choices, data.member "choices" = some choices → choices.first = none →
      firstChoiceContent data = none) ∧
    (∀ choices choice, data.member "choices" = some choices → choices.first = some choice →
      choice.member "message" = none → firstChoiceContent data = none) ∧
    (∀ choices choice message, data.member "choices" = some choices →
      choices.first = some choice → choice.member "message" = some message →
      message.member "content" = none → firstChoiceContent data = none) ∧
    (getAIResponse c t userId (.ok data)).1 ≠ "" ∧
    (getAIResponse c t userId (.ok data)).2 userId
      = limitHistory (c userId) ++
        [{ role := .user, content := t },
         { role := .assistant, content := (getAIResponse c t userId (.ok data)).1 }] := by
  have hex := extractReply_of_content data hbody
  have hack : acknowledgment ≠ "" := by decide
  have key : ∃ reply, extractReply data = .ok reply ∧ reply ≠ "" ∧
      (∀ s, firstChoiceContent data = some (.str s) → jsTrim s ≠ "" → reply = jsTrim s) ∧
      (firstChoiceContent data = none ∨ firstChoiceContent data = some .null ∨
        (∃ s, firstChoiceContent data = some (.str s) ∧ jsTrim s = "") →
        reply = acknowledgment) := by
    cases hv : firstChoiceContent data with
    | none =>
      rw [hv] at hex
      exact ⟨acknowledgment, hex, hack, by simp, by simp⟩
    | some v =>
      rcases hcontent v hv with rfl | ⟨s, rfl⟩
      · rw [hv] at hex
        exact ⟨acknowledgment, hex, hack, by simp, by simp⟩
      · rw [hv] at hex
        simp only [optTrim] at hex
        by_cases hs : jsTrim s = ""
        · refine ⟨acknowledgment, by rw [hex, if_pos hs], hack, ?_, by simp⟩
          intro s2 h2 hne
          simp only [Option.some.injEq, Json.str.injEq] at h2
          subst h2
          exact absurd hs hne
        · refine ⟨jsTrim s, by rw [hex, if_neg hs], hs, ?_, ?_⟩
          · intro s2 h2 _
            simp only [Option.some.injEq, Json.str.injEq] at h2
            rw [h2]
          · rintro (h0 | h0 | ⟨s2, h2, hs2⟩)
            · simp at h0
            · simp at h0
            · simp only [Option.some.injEq, Json.str.injEq] at h2
              subst h2
              exact absurd hs2 hs
  obtain ⟨reply, hreply, hne, hstr, hmiss⟩ := key
  have hget := getAIResponse_of_extracted c t userId data reply hreply
  refine ⟨?_, ?_, ?_, ?_, ?_, ?_, ?_, ?_⟩
  · intro s h1 h2; rw [hget]; exact hstr s h1 h2
  · intro h1; rw [hget]; exact hmiss h1
  · intro h1
    simp only [firstChoiceContent_eq_bind, h1, Option.none_bind]
  · intro choices h1 h2
    simp only [firstChoiceContent_eq_bind, h1, Option.some_bind, h2, Option.none_bind]
  · intro choices choice h1 h2 h3
    simp only [firstChoiceContent_eq_bind, h1, Option.some_bind, h2, h3, Option.none_bind]
  · intro choices choice message h1 h2 h3 h4
    simp only [firstChoiceContent_eq_bind, h1, Option.some_bind, h2, h3, h4]
  · rw [hget]; exact hne
  · rw [hget]
    simp only [pushAssistantTurn_same, pushUserTurn_same, List.append_assoc,
      List.singleton_append]

/-- C8, witness: a padded reply in a body of the documented shape. -/
theorem C8_successful_reply_witness :
    (getAIResponse emptyHistory "hi" "bob@s.whatsapp.net" (.ok (chatBody "  Hello! "))).1
      = jsTrim "  Hello! " :=
  (C8_successful_reply emptyHistory "hi" "bob@s.whatsapp.net" (chatBody "  Hello! ")
    (fun h => Json.noConfusion h)
    (fun v hv => Or.inr ⟨"  Hello! ", (Option.some.inj hv).symm⟩)).1 "  Hello! " rfl (by decide)


/-! ## C9: the `/clear` command -/

/-- C9: a message whose lower-cased, trimmed text is `/clear` takes the clear
branch: the stored history of the sender becomes empty, the reply is the
fixed confirmation, the histories of all other identifiers are unchanged, and
a context built from the stored history right afterwards (line 112 applied to
it) is the system turn alone; the next `getAIResponse` call of the sender
therefore sends the system turn and its own user turn only.  The padded,
mixed-case text `  /CLEAR  ` is such a message. -/
theorem C9_clear (toLowerCase : String → String) (st : BotState) (m : Inbound) (t : String)
    (h : jsTrim m.messageText ≠ "") (hclear : jsTrim (toLowerCase m.messageText) = "/clear") :
    (handleMessage toLowerCase st m).2 = some (.clear, clearedText) ∧
    (handleMessage toLowerCase st m).1.conversationHistory m.remoteJid = [] ∧
    buildMessages ((handleMessage toLowerCase st m).1.conversationHistory m.remoteJid)
      = [systemMessage] ∧
    (∀ j, j ≠ m.remoteJid →
      (handleMessage toLowerCase st m).1.conversationHistory j = st.conversationHistory j) ∧
    buildMessages
        (pushUserTurn (handleMessage toLowerCase st m).1.conversationHistory t m.remoteJid
          m.remoteJid)
      = [systemMessage, { role := .user, content := t }] ∧
    jsTrim (asciiLowerCase "  /CLEAR  ") = "/clear" := by
  have hr : route (messageLower toLowerCase m.messageText) = .clear :=
    (route_eq_clear _).mpr hclear
  have hm : handleMessage toLowerCase st m
      = ({ conversationHistory := setHistory st.conversationHistory m.remoteJid []
           userStats := updateUserStats st.userStats m.remoteJid m.createdAt m.seenAt },
         some (.clear, clearedText)) := by
    simp only [handleMessage, h, if_false, hr]
  rw [hm]
  refine ⟨rfl, setHistory_same _ _ _, ?_, ?_, ?_, by decide⟩
  · simp only [setHistory_same, buildMessages]
  · intro j hj
    exact setHistory_other _ _ _ _ hj
  · simp only [pushUserTurn_same, setHistory_same, buildMessages, limitHistory,
      List.length_nil, List.nil_append]
    rfl

/-- C9, witness: `  /CLEAR  ` from an identifier with six stored turns. -/
theorem C9_clear_witness :
    (handleMessage asciiLowerCase
        { conversationHistory := afterThreeExchanges, userStats := emptyStats }
        (sampleInbound "alice@s.whatsapp.net" "  /CLEAR  " 5)).1.conversationHistory
      "alice@s.whatsapp.net" = [] :=
  (C9_clear asciiLowerCase { conversationHistory := afterThreeExchanges, userStats := emptyStats }
    (sampleInbound "alice@s.whatsapp.net" "  /CLEAR  " 5) "next" (by decide) (by decide)).2.1

/-! ## C10: message count and first-seen time -/

/-- A dropped message changes nothing. -/
theorem step_of_dropped (toLowerCase : String → String) (st : BotState) (m : Inbound)
    (h : jsTrim m.messageText = "") : step toLowerCase st m = st := by
  simp [step, handleMessage, h]

/-- The record of the sender after a handled message. -/
theorem step_userStats_sender (toLowerCase : String → String) (st : BotState) (m : Inbound)
    (h : jsTrim m.messageText ≠ "") :
    ∃ r, updateUserStats st.userStats m.remoteJid m.createdAt m.seenAt m.remoteJid = some r ∧
      (step toLowerCase st m).userStats m.remoteJid
        = some (if route (messageLower toLowerCase m.messageText) = .ai
            then { r with aiQueries := r.aiQueries + 1 } else r) := by
  refine ⟨_, updateUserStats_same _ _ _ _, ?_⟩
  by_cases hr : route (messageLower toLowerCase m.messageText) = .ai
  · have hm := handleMessage_ai toLowerCase st m h hr
    simp only [step, hm, countAIQuery, updateUserStats_same, setStats_same, hr, if_true]
  · simp only [step, handleMessage, h, if_false, hr]
    cases hb : route (messageLower toLowerCase m.messageText) <;>
      first
      | exact absurd hb hr
      | exact updateUserStats_same _ _ _ _

/-- The records of the other identifiers after a message. -/
theorem step_userStats_other (toLowerCase : String → String) (st : BotState) (m : Inbound)
    (j : Jid) (hj : j ≠ m.remoteJid) :
    (step toLowerCase st m).userStats j = st.userStats j := by
  by_cases h : jsTrim m.messageText = ""
  · rw [step_of_dropped toLowerCase st m h]
  · simp only [step, handleMessage, h, if_false]
    cases route (messageLower toLowerCase m.messageText) <;>
      first
      | exact updateUserStats_other _ _ _ _ _ hj
      | (simp only [countAIQuery, updateUserStats_same]
         rw [setStats_other _ _ _ _ hj]
         exact updateUserStats_other _ _ _ _ _ hj)

theorem step_messageCountOf (toLowerCase : String → String) (st : BotState) (m : Inbound)
    (j : Jid) :
    messageCountOf (step toLowerCase st m).userStats j
      = messageCountOf st.userStats j
        + (if (m.handled && decide (m.remoteJid = j)) = true then 1 else 0) := by
  by_cases h : jsTrim m.messageText = ""
  · simp [step_of_dropped toLowerCase st m h, Inbound.handled, h]
  · by_cases hj : m.remoteJid = j
    · subst hj
      obtain ⟨r, hr, hs⟩ := step_userStats_sender toLowerCase st m h
      rw [updateUserStats_same] at hr
      simp only [messageCountOf, hs, Inbound.handled]
      cases hu : st.userStats m.remoteJid <;> rw [hu] at hr <;>
        simp only [Option.some.injEq] at hr <;> subst hr <;> split_ifs <;> simp_all
    · have ho := step_userStats_other toLowerCase st m j (fun hc => hj hc.symm)
      simp [messageCountOf, ho, hj]

theorem step_firstSeenOf (toLowerCase : String → String) (st : BotState) (m : Inbound)
    (j : Jid) :
    firstSeenOf (step toLowerCase st m).userStats j
      = if (m.handled && decide (m.remoteJid = j)) = true
        then some ((firstSeenOf st.userStats j).getD m.createdAt)
        else firstSeenOf st.userStats j := by
  by_cases h : jsTrim m.messageText = ""
  · simp [step_of_dropped toLowerCase st m h, Inbound.handled, h]
  · by_cases hj : m.remoteJid = j
    · subst hj
      obtain ⟨r, hr, hs⟩ := step_userStats_sender toLowerCase st m h
      rw [updateUserStats_same] at hr
      simp only [firstSeenOf, hs, Inbound.handled]
      cases hu : st.userStats m.remoteJid <;> rw [hu] at hr <;>
        simp only [Option.some.injEq] at hr <;> subst hr <;> split_ifs <;> simp_all
    · have ho := step_userStats_other toLowerCase st m j (fun hc => hj hc.symm)
      simp [firstSeenOf, ho, hj]

theorem foldl_step_messageCountOf (toLowerCase : String → String) (ms : List Inbound)
    (st : BotState) (j : Jid) :
    messageCountOf (ms.foldl (step toLowerCase) st).userStats j
      = messageCountOf st.userStats j + (handledFrom j ms).length := by
  induction ms generalizing st with
  | nil => simp [handledFrom]
  | cons x rest ih =>
    simp only [List.foldl_cons]
    rw [ih, step_messageCountOf]
    simp only [handledFrom, List.filter_cons]
    split_ifs
    · simp only [List.length_cons]; omega
    · omega

theorem foldl_step_firstSeenOf_some (toLowerCase : String → String) (ms : List Inbound)
    (st : BotState) (j : Jid) (t : Nat) (h : firstSeenOf st.userStats j = some t) :
    firstSeenOf (ms.foldl (step toLowerCase) st).userStats j = some t := by
  induction ms generalizing st with
  | nil => exact h
  | cons x rest ih =>
    simp only [List.foldl_cons]
    apply ih
    rw [step_firstSeenOf, h]
    split_ifs <;> rfl

theorem foldl_step_firstSeenOf_none (toLowerCase : String → String) (ms : List Inbound)
    (st : BotState) (j : Jid) (first : Inbound) (h : firstSeenOf st.userStats j = none)
    (hfirst : (handledFrom j ms).head? = some first) :
    firstSeenOf (ms.foldl (step toLowerCase) st).userStats j = some first.createdAt := by
  induction ms generalizing st with
  | nil => simp [handledFrom] at hfirst
  | cons x rest ih =>
    simp only [List.foldl_cons]
    by_cases hx : (x.handled && decide (x.remoteJid = j)) = true
    · simp only [handledFrom, List.filter_cons, hx, if_true, List.head?_cons,
        Option.some.injEq] at hfirst
      subst hfirst
      apply foldl_step_firstSeenOf_some
      rw [step_firstSeenOf, h, if_pos hx]
      rfl
    · simp only [handledFrom, List.filter_cons, hx] at hfirst
      apply ih
      · rw [step_firstSeenOf, h, if_neg hx]
      · exact hfirst

/-- C10: `updateUserStats` creates the record when it is absent (message
count 0, AI queries 0, first seen now), then raises the message count by
exactly 1 and sets the last-seen time; on an existing record nothing else
changes, so first-seen and the AI query counter stay, and no other identifier
is touched.  Two calls for a new identifier give message count 2 and the
first-seen time of the first call.  After any sequence of messages from
process start, the message count of an identifier is the number of its
handled messages, commands and freeform alike, and its first-seen time is the
clock reading of the first of them. -/
theorem C10_user_stats (u : UserStatsMap) (userId : Jid)
    (createdAt seenAt createdAt2 seenAt2 : Nat) (toLowerCase : String → String)
    (ms : List Inbound) (first : Inbound)
    (hfirst : (handledFrom userId ms).head? = some first) :
    (u userId = none →
      updateUserStats u userId createdAt seenAt userId
        = some { messageCount := 1, firstSeen := createdAt, aiQueries := 0,
                 lastSeen := some seenAt }) ∧
    (∀ r, u userId = some r →
      updateUserStats u userId createdAt seenAt userId
        = some { r with messageCount := r.messageCount + 1, lastSeen := some seenAt }) ∧
    (∀ j, j ≠ userId → updateUserStats u userId createdAt seenAt j = u j) ∧
    (u userId = none →
      updateUserStats (updateUserStats u userId createdAt seenAt) userId createdAt2 seenAt2
          userId
        = some { messageCount := 2, firstSeen := createdAt, aiQueries := 0,
                 lastSeen := some seenAt2 }) ∧
    messageCountOf (run toLowerCase ms).userStats userId = (handledFrom userId ms).length ∧
    firstSeenOf (run toLowerCase ms).userStats userId = some first.createdAt := by
  refine ⟨?_, ?_, ?_, ?_, ?_, ?_⟩
  · intro hu; rw [updateUserStats_same, hu]
  · intro r hu; rw [updateUserStats_same, hu]
  · intro j hj; exact updateUserStats_other _ _ _ _ _ hj
  · intro hu; rw [updateUserStats_same, updateUserStats_same, hu]
  · rw [run, foldl_step_messageCountOf toLowerCase ms initialState userId]
    simp [messageCountOf, initialState, emptyStats]
  · exact foldl_step_firstSeenOf_none toLowerCase ms initialState userId first rfl hfirst

/-- C10, witness: a command, another sender, an empty message and a freeform
text: two handled messages from the identifier. -/
theorem C10_user_stats_witness :
    messageCountOf (run asciiLowerCase
        [sampleInbound "bob@s.whatsapp.net" "/ping" 100,
         sampleInbound "eve@s.whatsapp.net" "hi" 200,
         sampleInbound "bob@s.whatsapp.net" "   " 300,
         sampleInbound "bob@s.whatsapp.net" "tell me more" 400]).userStats "bob@s.whatsapp.net"
      = 2 ∧
    firstSeenOf (run asciiLowerCase
        [sampleInbound "bob@s.whatsapp.net" "/ping" 100,
         sampleInbound "eve@s.whatsapp.net" "hi" 200,
         sampleInbound "bob@s.whatsapp.net" "   " 300,
         sampleInbound "bob@s.whatsapp.net" "tell me more" 400]).userStats "bob@s.whatsapp.net"
      = some 100 :=
  (C10_user_stats emptyStats "bob@s.whatsapp.net" 1 2 3 4 asciiLowerCase
    [sampleInbound "bob@s.whatsapp.net" "/ping" 100,
     sampleInbound "eve@s.whatsapp.net" "hi" 200,
     sampleInbound "bob@s.whatsapp.net" "   " 300,
     sampleInbound "bob@s.whatsapp.net" "tell me more" 400]
    (sampleInbound "bob@s.whatsapp.net" "/ping" 100) rfl).2.2.2.2


/-! ## C12: the history-limiting step -/

/-- C12: for every list of turns, the limiting step of lines 92-95 (and of
`src/test.js`, lines 236-238) yields a list of length `min length 6` that is
the input with a front part removed, that is, its last `min length 6` turns in
the same order; a list of at most 6 turns is left unchanged, and applying the
step twice gives the same as applying it once.  On the twelve turns of the
test it keeps `Message 4` .. `Message 9`. -/
theorem C12_limit_history (hist : List Turn) :
    (limitHistory hist).length = min hist.length 6 ∧
    limitHistory hist = hist.drop (hist.length - min hist.length 6) ∧
    (∃ front, hist = front ++ limitHistory hist) ∧
    (hist.length ≤ 6 → limitHistory hist = hist) ∧
    limitHistory (limitHistory hist) = limitHistory hist ∧
    limitHistory testHistory
      = [userTurn "Message 4", userTurn "Message 5", userTurn "Message 6",
         userTurn "Message 7", userTurn "Message 8", userTurn "Message 9"] := by
  have hdrop := limitHistory_eq_drop hist
  have hk : hist.length - min hist.length 6 = hist.length - 6 := by omega
  refine ⟨limitHistory_length hist, by rw [hk]; exact hdrop, ?_, ?_, ?_, by decide⟩
  · exact ⟨hist.take (hist.length - 6), by rw [hdrop, List.take_append_drop]⟩
  · intro hle
    have h0 : hist.length - 6 = 0 := by omega
    rw [hdrop, h0, List.drop_zero]
  · have hlen := limitHistory_length hist
    have h0 : (limitHistory hist).length - 6 = 0 := by omega
    rw [limitHistory_eq_drop (limitHistory hist), h0, List.drop_zero]

/-- C12, witness: a history of three turns is left unchanged. -/
theorem C12_limit_history_witness :
    limitHistory [userTurn "a", assistantTurn "b", userTurn "c"]
      = [userTurn "a", assistantTurn "b", userTurn "c"] :=
  (C12_limit_history [userTurn "a", assistantTurn "b", userTurn "c"]).2.2.2.1 (by decide)

/-! ## C14: the stored history is a suffix of what was appended -/

/-- The history of the caller after a call: the history before, cut by the
limiting step unless the import rejects, followed by the turns the call
pushes. -/
theorem getAIResponse_store_same (c : ConversationHistory) (t : String) (userId : Jid)
    (r : Completion) :
    ∃ kept front, c userId = front ++ kept ∧ kept.length ≤ (c userId).length ∧
      (getAIResponse c t userId r).2 userId = kept ++ turnsAppended t r := by
  have hlim : ∃ front, c userId = front ++ limitHistory (c userId) :=
    ⟨(c userId).take ((c userId).length - 6), by
      rw [limitHistory_eq_drop, List.take_append_drop]⟩
  obtain ⟨front, hfront⟩ := hlim
  have hlen : (limitHistory (c userId)).length ≤ (c userId).length := by
    rw [limitHistory_length]; omega
  cases hf : failsAfterPush r with
  | true =>
    refine ⟨limitHistory (c userId), front, hfront, hlen, ?_⟩
    rw [getAIResponse_store_of_fails c t userId r hf, pushUserTurn_same]
    cases r with
    | importRejects => simp [failsAfterPush] at hf
    | fetchRejects => rfl
    | errorTextRejects => rfl
    | notOk status => rfl
    | jsonRejects => rfl
    | ok data =>
      simp only [failsAfterPush] at hf
      cases hd : extractReply data with
      | error e => simp only [turnsAppended, hd]; rfl
      | ok reply => simp [hd] at hf
  | false =>
    cases r with
    | importRejects => exact ⟨c userId, [], by simp, le_refl _, by simp [turnsAppended]; rfl⟩
    | fetchRejects => simp [failsAfterPush] at hf
    | errorTextRejects => simp [failsAfterPush] at hf
    | notOk status => simp [failsAfterPush] at hf
    | jsonRejects => simp [failsAfterPush] at hf
    | ok data =>
      obtain ⟨reply, hreply⟩ := extractReply_of_succeeds data hf
      refine ⟨limitHistory (c userId), front, hfront, hlen, ?_⟩
      rw [getAIResponse_of_extracted c t userId data reply hreply]
      simp only [pushAssistantTurn_same, pushUserTurn_same, turnsAppended, hreply,
        List.append_assoc]
      rfl

/-- The histories of the other identifiers after a call. -/
theorem getAIResponse_store_other (c : ConversationHistory) (t : String) (userId j : Jid)
    (r : Completion) (hj : j ≠ userId) : (getAIResponse c t userId r).2 j = c j := by
  rcases getAIResponse_store_cases c t userId r with h1 | h1 | ⟨reply, h1⟩
  · rw [h1]
  · rw [h1, pushUserTurn_other _ _ _ _ hj]
  · rw [h1, pushAssistantTurn_other _ _ _ _ hj, pushUserTurn_other _ _ _ _ hj]

/-- One operation keeps every stored history a suffix of the record of
appended turns. -/
theorem applyOp_suffix (c : ConversationHistory) (log : Jid → List Turn) (op : StoreOp)
    (j : Jid) (h : ∃ front, log j = front ++ c j) :
    ∃ front, logOp log op j = front ++ applyOp c op j := by
  obtain ⟨front, hfront⟩ := h
  cases op with
  | respond t userId r =>
    by_cases hj : j = userId
    · subst hj
      obtain ⟨kept, cut, hcut, _, hstore⟩ := getAIResponse_store_same c t j r
      refine ⟨front ++ cut, ?_⟩
      simp only [logOp, applyOp, if_true, hstore, hfront, hcut, List.append_assoc]
    · refine ⟨front, ?_⟩
      simp only [logOp, applyOp, if_neg hj, getAIResponse_store_other c t userId j r hj, hfront]
  | clear userId =>
    by_cases hj : j = userId
    · subst hj
      exact ⟨[], by simp [logOp, applyOp, setHistory_same]⟩
    · refine ⟨front, ?_⟩
      simp only [logOp, applyOp, if_neg hj, setHistory_other _ _ _ _ hj, hfront]

theorem foldl_applyOp_suffix (ops : List StoreOp) (c : ConversationHistory)
    (log : Jid → List Turn) (j : Jid) (h : ∃ front, log j = front ++ c j) :
    ∃ front, ops.foldl logOp log j = front ++ ops.foldl applyOp c j := by
  induction ops generalizing c log with
  | nil => exact h
  | cons op rest ih => exact ih (applyOp c op) (logOp log op) (applyOp_suffix c log op j h)

/-- C14: in every state reachable from the empty store by `getAIResponse`
calls (with any completion outcome) and `/clear` commands, the stored history
of each identifier is a contiguous suffix, of length at most 8, of the
sequence of all turns appended for that identifier since its last clear (or
since start), in their original order; consequently a message list sent to
the completion API from such a state never has more than 8 entries, system
turn included. -/
theorem C14_history_is_recent_suffix (ops : List StoreOp) (j : Jid) (t : String)
    (userId : Jid) (r : Completion) :
    (∃ front, appendedSinceClear ops j = front ++ runOps ops j) ∧
    (runOps ops j).length ≤ 8 ∧
    (∀ msgs, requestMessages (runOps ops) t userId r = some msgs → msgs.length ≤ 8) := by
  refine ⟨?_, runOps_length_le ops j, ?_⟩
  · exact foldl_applyOp_suffix ops emptyHistory (fun _ => []) j ⟨[], rfl⟩
  · intro msgs hmsgs
    cases r with
    | importRejects => simp [requestMessages, getAIResponseTry] at hmsgs
    | _ =>
      rw [requestMessages_eq _ _ _ _ (by simp)] at hmsgs
      simp only [Option.some.injEq] at hmsgs
      subst hmsgs
      simp only [buildMessages, List.length_cons, pushUserTurn_same, List.length_append,
        limitHistory_length, List.length_singleton, List.length_nil]
      omega

set_option maxRecDepth 8000 in
/-- C14, witness: the request of an eighth message after the seven answered
messages `m1` .. `m7` has 8 entries. -/
theorem C14_history_is_recent_suffix_witness :
    (buildMessages
      (pushUserTurn (runOps (exchanges "carol@s.whatsapp.net" sevenMessages)) "m8"
        "carol@s.whatsapp.net" "carol@s.whatsapp.net")).length ≤ 8 :=
  (C14_history_is_recent_suffix (exchanges "carol@s.whatsapp.net" sevenMessages)
    "carol@s.whatsapp.net" "m8" "carol@s.whatsapp.net" .fetchRejects).2.2 _ rfl


/-! ## C13: bounded reconnection -/

/-- A step raises the counter by one exactly when it starts the bot again,
and only an `open` lowers it. -/
theorem connStep_counter (loggedOut : Nat) (s : ConnState) (e : ConnEvent)
    (he : e ≠ .opened) :
    (connStep loggedOut s e).1.reconnectAttempts
      = s.reconnectAttempts + (if (connStep loggedOut s e).2.restarts = true then 1 else 0) := by
  unfold connStep
  cases hx : s.exited with
  | some code => simp [ConnAction.restarts]
  | none =>
    cases e with
    | close statusCode =>
      simp only [connectionUpdate]
      split_ifs <;> simp_all [ConnAction.restarts]
    | opened => exact absurd rfl he
    | other => simp [ConnAction.restarts]
    | startFailed =>
      simp only [startFailure]
      split_ifs <;> simp_all [ConnAction.restarts]

/-- No step takes the counter above the maximum. -/
theorem connStep_counter_le (loggedOut : Nat) (s : ConnState) (e : ConnEvent)
    (h : s.reconnectAttempts ≤ MAX_RECONNECT_ATTEMPTS) :
    (connStep loggedOut s e).1.reconnectAttempts ≤ MAX_RECONNECT_ATTEMPTS := by
  unfold connStep
  cases hx : s.exited with
  | some code => simpa using h
  | none =>
    cases e with
    | close statusCode =>
      simp only [connectionUpdate]
      split_ifs with h1 h2
      · exact h1.2
      · exact h
      · exact h
    | opened => simp
    | other => simpa using h
    | startFailed =>
      simp only [startFailure]
      split_ifs with h1
      · exact h1
      · exact h

theorem connRun_counter_le (loggedOut : Nat) (evs : List ConnEvent) (s : ConnState)
    (h : s.reconnectAttempts ≤ MAX_RECONNECT_ATTEMPTS) :
    (connRun loggedOut s evs).1.reconnectAttempts ≤ MAX_RECONNECT_ATTEMPTS := by
  induction evs generalizing s with
  | nil => exact h
  | cons e rest ih =>
    simp only [connRun]
    exact ih _ (connStep_counter_le loggedOut s e h)

/-- While no `open` arrives, the counter counts the restarts. -/
theorem connRun_restarts (loggedOut : Nat) (evs : List ConnEvent) (s : ConnState)
    (hquiet : ConnEvent.opened ∉ evs) :
    (connRun loggedOut s evs).1.reconnectAttempts
      = s.reconnectAttempts + (connRun loggedOut s evs).2.countP ConnAction.restarts := by
  induction evs generalizing s with
  | nil => simp [connRun]
  | cons e rest ih =>
    have he : e ≠ .opened := fun hc => hquiet (by rw [hc]; exact List.mem_cons_self _ _)
    have hrest : ConnEvent.opened ∉ rest := fun hc => hquiet (List.mem_cons_of_mem _ hc)
    simp only [connRun, List.countP_cons]
    rw [ih _ hrest, connStep_counter loggedOut s e he]
    omega

/-- C13: the counter starts at 0 and the maximum is 5.  In a running
process a `close` event starts a reconnect exactly when the status code is
not the logged-out code and the counter is below 5, and the counter is then
one higher; in every other case the process exits.  An `open` event resets
the counter to 0.  In every reachable state the counter is at most 5, at most
5 restarts (reconnects after a close, retries after a failed start) happen
without an intervening `open`, and a close with the logged-out code never
starts a reconnect. -/
theorem C13_reconnect_bounded (loggedOut : Nat) (s : ConnState) (statusCode : Option Nat)
    (before later : List ConnEvent) (hlive : s.exited = none)
    (hquiet : ConnEvent.opened ∉ later) :
    initialConn.reconnectAttempts = 0 ∧ MAX_RECONNECT_ATTEMPTS = 5 ∧
    ((connStep loggedOut s (.close statusCode)).2 = .reconnect
      ↔ statusCode ≠ some loggedOut ∧ s.reconnectAttempts < 5) ∧
    ((connStep loggedOut s (.close statusCode)).2 = .reconnect →
      (connStep loggedOut s (.close statusCode)).1
        = { s with reconnectAttempts := s.reconnectAttempts + 1 }) ∧
    ((connStep loggedOut s (.close statusCode)).2 ≠ .reconnect →
      ∃ code, (connStep loggedOut s (.close statusCode)).2 = .exit code ∧
        (connStep loggedOut s (.close statusCode)).1 = { s with exited := some code }) ∧
    connStep loggedOut s .opened = ({ s with reconnectAttempts := 0 }, .nothing) ∧
    (connRun loggedOut initialConn before).1.reconnectAttempts ≤ 5 ∧
    (connRun loggedOut (connRun loggedOut initialConn before).1 later).2.countP
        ConnAction.restarts ≤ 5 ∧
    (connStep loggedOut s (.close (some loggedOut))).2 ≠ .reconnect := by
  have hclose : connStep loggedOut s (.close statusCode)
      = connectionUpdate loggedOut s statusCode := by
    simp only [connStep, hlive]
  have hreach := connRun_counter_le loggedOut before initialConn (by decide)
  refine ⟨rfl, rfl, ?_, ?_, ?_, ?_, hreach, ?_, ?_⟩
  · rw [hclose]
    simp only [connectionUpdate, MAX_RECONNECT_ATTEMPTS]
    split_ifs <;> simp_all
  · rw [hclose]
    simp only [connectionUpdate, MAX_RECONNECT_ATTEMPTS]
    split_ifs <;> simp_all
  · rw [hclose]
    simp only [connectionUpdate, MAX_RECONNECT_ATTEMPTS]
    split_ifs <;> simp_all
  · simp only [connStep, hlive]
  · have hcount := connRun_restarts loggedOut later (connRun loggedOut initialConn before).1
      hquiet
    have hle := connRun_counter_le loggedOut later (connRun loggedOut initialConn before).1
      hreach
    simp only [MAX_RECONNECT_ATTEMPTS] at hle
    omega
  · rw [show connStep loggedOut s (.close (some loggedOut))
        = connectionUpdate loggedOut s (some loggedOut) by simp only [connStep, hlive]]
    simp only [connectionUpdate]
    split_ifs <;> simp_all

/-- C13, witness: with logged-out code 401, three closes, then eight more
closes and failed starts without an `open`: five restarts, then exit. -/
theorem C13_reconnect_bounded_witness :
    (connRun 401 (connRun 401 initialConn [.close (some 428), .opened, .close none]).1
        [.close (some 408), .startFailed, .close none, .other, .close (some 500),
         .close (some 428), .close none, .startFailed]).2.countP ConnAction.restarts ≤ 5 ∧
    (connStep 401 initialConn (.close (some 401))).2 ≠ .reconnect :=
  have h := C13_reconnect_bounded 401 initialConn (some 428)
    [.close (some 428), .opened, .close none]
    [.close (some 408), .startFailed, .close none, .other, .close (some 500),
     .close (some 428), .close none, .startFailed] rfl (by decide)
  ⟨h.2.2.2.2.2.2.2.1, h.2.2.2.2.2.2.2.2⟩


/-! ## C11: the static commands -/

/-- ASCII lower-casing leaves white space alone. -/
theorem toLower_of_whiteSpace (c : Char) (h : isJsWhiteSpace c = true) : c.toLower = c := by
  have hn : ¬ (c.toNat ≥ 65 ∧ c.toNat ≤ 90) := by
    simp only [isJsWhiteSpace, Bool.or_eq_true, beq_iff_eq, Bool.and_eq_true,
      decide_eq_true_eq] at h
    omega
  simp only [Char.toLower, hn, if_false]

theorem nonWhite_of_toLower (c a : Char) (h : c.toLower = a)
    (ha : isJsWhiteSpace a = false) : isJsWhiteSpace c = false := by
  cases hc : isJsWhiteSpace c with
  | false => rfl
  | true =>
    rw [toLower_of_whiteSpace c hc] at h
    rw [h, ha] at hc
    exact absurd hc (by decide)

theorem map_toLower_of_whiteSpace (ws : List Char)
    (h : ∀ c ∈ ws, isJsWhiteSpace c = true) : ws.map Char.toLower = ws := by
  induction ws with
  | nil => rfl
  | cons x xs ih =>
    rw [List.map_cons, toLower_of_whiteSpace x (h x (List.mem_cons_self _ _)),
      ih (fun c hc => h c (List.mem_cons_of_mem _ hc))]

/-- Dropping a prefix of matching elements in front of an element that does
not match. -/
theorem dropWhile_padded {α : Type} (p : α → Bool) (pre rest : List α) (a : α) (t : List α)
    (hpre : ∀ c ∈ pre, p c = true) (hrest : rest = a :: t) (ha : p a = false) :
    (pre ++ rest).dropWhile p = rest := by
  induction pre with
  | nil => subst hrest; simp [List.dropWhile, ha]
  | cons x xs ih =>
    have hx := hpre x (List.mem_cons_self _ _)
    simp only [List.cons_append, List.dropWhile_cons, hx, if_true]
    exact ih (fun c hc => hpre c (List.mem_cons_of_mem _ hc))

/-- Trimming removes white space around a text that starts and ends with
other characters. -/
theorem jsTrim_padded (pre tok post : List Char) (a b : Char) (t t2 : List Char)
    (hpre : ∀ c ∈ pre, isJsWhiteSpace c = true) (hpost : ∀ c ∈ post, isJsWhiteSpace c = true)
    (htok : tok = a :: t) (hrev : tok.reverse = b :: t2)
    (ha : isJsWhiteSpace a = false) (hb : isJsWhiteSpace b = false) :
    jsTrim (padded pre tok post) = ⟨tok⟩ := by
  have h1 : (pre ++ tok ++ post).dropWhile isJsWhiteSpace = tok ++ post := by
    rw [List.append_assoc]
    exact dropWhile_padded isJsWhiteSpace pre (tok ++ post) a (t ++ post) hpre
      (by rw [htok]; rfl) ha
  have h2 : (tok ++ post).reverse.dropWhile isJsWhiteSpace = tok.reverse := by
    rw [List.reverse_append]
    exact dropWhile_padded isJsWhiteSpace post.reverse tok.reverse b t2
      (fun c hc => hpost c (List.mem_reverse.mp hc)) hrev hb
  simp only [jsTrim, padded, h1, h2, List.reverse_reverse]

/-- A padded text whose body lower-cases to a token that starts and ends with
characters other than white space: it is not empty after trimming, and its
lower-cased, trimmed form is the token. -/
theorem messageLower_padded (pre body post tok : List Char) (a b : Char) (t t2 : List Char)
    (hpre : ∀ c ∈ pre, isJsWhiteSpace c = true) (hpost : ∀ c ∈ post, isJsWhiteSpace c = true)
    (hbody : body.map Char.toLower = tok)
    (htok : tok = a :: t) (hrev : tok.reverse = b :: t2)
    (ha : isJsWhiteSpace a = false) (hb : isJsWhiteSpace b = false) :
    jsTrim (padded pre body post) ≠ "" ∧
    messageLower asciiLowerCase (padded pre body post) = ⟨tok⟩ := by
  constructor
  · have hb1 : body.map Char.toLower = a :: t := by rw [hbody, htok]
    obtain ⟨a1, t1, hbody1, ha1, _⟩ := List.map_eq_cons_iff.mp hb1
    have hb2 : body.reverse.map Char.toLower = b :: t2 := by
      rw [List.map_reverse, hbody, hrev]
    obtain ⟨b1, t3, hbody2, hb3, _⟩ := List.map_eq_cons_iff.mp hb2
    rw [jsTrim_padded pre body post a1 b1 t1 t3 hpre hpost hbody1 hbody2
      (nonWhite_of_toLower a1 a ha1 ha) (nonWhite_of_toLower b1 b hb3 hb)]
    intro hc
    have hd := congrArg String.data hc
    simp [hbody1] at hd
  · have hlow : asciiLowerCase (padded pre body post) = padded pre tok post := by
      simp only [asciiLowerCase, padded, List.map_append, hbody,
        map_toLower_of_whiteSpace pre hpre, map_toLower_of_whiteSpace post hpost]
    rw [messageLower, hlow]
    exact jsTrim_padded pre tok post a b t t2 hpre hpost htok hrev ha hb

/-- The state after a message that takes the help, info or ping branch. -/
theorem handleMessage_static (toLowerCase : String → String) (st : BotState) (m : Inbound)
    (h : jsTrim m.messageText ≠ "")
    (hr : route (messageLower toLowerCase m.messageText) = .help ∨
      route (messageLower toLowerCase m.messageText) = .info ∨
      route (messageLower toLowerCase m.messageText) = .ping) :
    (handleMessage toLowerCase st m).1
      = { st with userStats :=
            updateUserStats st.userStats m.remoteJid m.createdAt m.seenAt } := by
  simp only [handleMessage, h, if_false]
  rcases hr with hr | hr | hr <;> simp only [hr]

/-- The reply of a message that takes the help, info or ping branch. -/
theorem handleMessage_static_reply (toLowerCase : String → String) (st : BotState)
    (m : Inbound) (h : jsTrim m.messageText ≠ "") :
    (messageLower toLowerCase m.messageText = "/help" →
      (handleMessage toLowerCase st m).2 = some (.help, helpText)) ∧
    (messageLower toLowerCase m.messageText = "/info" →
      (handleMessage toLowerCase st m).2 = some (.info, infoText)) ∧
    (messageLower toLowerCase m.messageText = "/ping" →
      (handleMessage toLowerCase st m).2 = some (.ping, pingText)) := by
  refine ⟨fun hx => ?_, fun hx => ?_, fun hx => ?_⟩
  · simp only [handleMessage, h, if_false, (route_eq_help _).mpr hx]
  · simp only [handleMessage, h, if_false, (route_eq_info _).mpr hx]
  · simp only [handleMessage, h, if_false, (route_eq_ping _).mpr hx]

/-- C11: a message whose lower-cased, trimmed text is `/help`, `/info` or
`/ping` is answered with exactly the corresponding fixed string, whoever the
sender and whatever the state, and handling it leaves the conversation
history of every identifier and every `aiQueries` counter unchanged.  With
ASCII lower-casing, a token written in any letter case between any white
space is such a message. -/
theorem C11_static_commands (toLowerCase : String → String) (st : BotState) (m : Inbound)
    (pre body post : List Char) (h : jsTrim m.messageText ≠ "")
    (hcmd : jsTrim (toLowerCase m.messageText) = "/help" ∨
      jsTrim (toLowerCase m.messageText) = "/info" ∨
      jsTrim (toLowerCase m.messageText) = "/ping")
    (hpre : ∀ c ∈ pre, isJsWhiteSpace c = true) (hpost : ∀ c ∈ post, isJsWhiteSpace c = true)
    (hbody : body.map Char.toLower = "/help".data ∨ body.map Char.toLower = "/info".data ∨
      body.map Char.toLower = "/ping".data) :
    (jsTrim (toLowerCase m.messageText) = "/help" →
      (handleMessage toLowerCase st m).2 = some (.help, helpText)) ∧
    (jsTrim (toLowerCase m.messageText) = "/info" →
      (handleMessage toLowerCase st m).2 = some (.info, infoText)) ∧
    (jsTrim (toLowerCase m.messageText) = "/ping" →
      (handleMessage toLowerCase st m).2 = some (.ping, pingText)) ∧
    (∀ st2 m2, jsTrim m2.messageText ≠ "" →
      jsTrim (toLowerCase m2.messageText) = jsTrim (toLowerCase m.messageText) →
      (handleMessage toLowerCase st2 m2).2 = (handleMessage toLowerCase st m).2) ∧
    (handleMessage toLowerCase st m).1.conversationHistory = st.conversationHistory ∧
    (∀ j, aiQueriesOf (handleMessage toLowerCase st m).1.userStats j
      = aiQueriesOf st.userStats j) ∧
    (∀ j r, st.userStats j = some r →
      ∃ r2, (handleMessage toLowerCase st m).1.userStats j = some r2 ∧
        r2.aiQueries = r.aiQueries) ∧
    jsTrim (padded pre body post) ≠ "" ∧
    messageLower asciiLowerCase (padded pre body post) = ⟨body.map Char.toLower⟩ ∧
    (∃ reply, (handleMessage asciiLowerCase st
        { m with messageText := padded pre body post }).2 = some reply ∧
      (reply = (.help, helpText) ∨ reply = (.info, infoText) ∨ reply = (.ping, pingText))) := by
  have hr : route (messageLower toLowerCase m.messageText) = .help ∨
      route (messageLower toLowerCase m.messageText) = .info ∨
      route (messageLower toLowerCase m.messageText) = .ping := by
    rcases hcmd with hx | hx | hx
    · exact Or.inl ((route_eq_help _).mpr hx)
    · exact Or.inr (Or.inl ((route_eq_info _).mpr hx))
    · exact Or.inr (Or.inr ((route_eq_ping _).mpr hx))
  have hst := handleMessage_static toLowerCase st m h hr
  obtain ⟨hhelp, hinfo, hping⟩ := handleMessage_static_reply toLowerCase st m h
  have hpad : jsTrim (padded pre body post) ≠ "" ∧
      messageLower asciiLowerCase (padded pre body post) = ⟨body.map Char.toLower⟩ := by
    rcases hbody with hx | hx | hx
    · exact messageLower_padded pre body post _ _ _ _ _ hpre hpost rfl
        (hx.trans rfl) ((congrArg List.reverse hx).trans rfl) (by decide) (by decide)
    · exact messageLower_padded pre body post _ _ _ _ _ hpre hpost rfl
        (hx.trans rfl) ((congrArg List.reverse hx).trans rfl) (by decide) (by decide)
    · exact messageLower_padded pre body post _ _ _ _ _ hpre hpost rfl
        (hx.trans rfl) ((congrArg List.reverse hx).trans rfl) (by decide) (by decide)
  refine ⟨hhelp, hinfo, hping, ?_, ?_, ?_, ?_, hpad.1, hpad.2, ?_⟩
  · intro st2 m2 h2 heq
    obtain ⟨hhelp2, hinfo2, hping2⟩ := handleMessage_static_reply toLowerCase st2 m2 h2
    rcases hcmd with hx | hx | hx
    · rw [hhelp hx, hhelp2 (heq.trans hx)]
    · rw [hinfo hx, hinfo2 (heq.trans hx)]
    · rw [hping hx, hping2 (heq.trans hx)]
  · rw [hst]
  · intro j
    rw [hst]
    exact aiQueriesOf_updateUserStats _ _ _ _ _
  · intro j r hj
    rw [hst]
    by_cases hjs : j = m.remoteJid
    · subst hjs
      refine ⟨_, updateUserStats_same _ _ _ _, ?_⟩
      rw [hj]
    · exact ⟨r, by simp only [updateUserStats_other _ _ _ _ _ hjs, hj], rfl⟩
  · obtain ⟨hhelp3, hinfo3, hping3⟩ := handleMessage_static_reply asciiLowerCase st
      { m with messageText := padded pre body post } hpad.1
    have hlow := hpad.2
    rcases hbody with hx | hx | hx
    · exact ⟨_, hhelp3 (by rw [hlow, hx]), Or.inl rfl⟩
    · exact ⟨_, hinfo3 (by rw [hlow, hx]), Or.inr (Or.inl rfl)⟩
    · exact ⟨_, hping3 (by rw [hlow, hx]), Or.inr (Or.inr rfl)⟩

/-- C11, witness: `/PiNg` between a tab and a line feed, sent to a state
with six stored turns. -/
theorem C11_static_commands_witness :
    (handleMessage asciiLowerCase
        { conversationHistory := afterThreeExchanges, userStats := emptyStats }
        (sampleInbound "dave@s.whatsapp.net" "\t/PiNg\n" 7)).2 = some (.ping, pingText) ∧
    (handleMessage asciiLowerCase
        { conversationHistory := afterThreeExchanges, userStats := emptyStats }
        (sampleInbound "dave@s.whatsapp.net" "\t/PiNg\n" 7)).1.conversationHistory
      = afterThreeExchanges :=
  have h := C11_static_commands asciiLowerCase
    { conversationHistory := afterThreeExchanges, userStats := emptyStats }
    (sampleInbound "dave@s.whatsapp.net" "\t/PiNg\n" 7)
    ['\t'] ['/', 'P', 'i', 'N', 'g'] ['\n'] (by decide)
    (Or.inr (Or.inr (by decide))) (by decide) (by decide) (Or.inr (Or.inr (by decide)))
  ⟨h.2.2.1 (by decide), h.2.2.2.2.1⟩


end AtlasBot
